import Mathlib

/-
Verification of the FFI-function synthesis engine of the ritual repository
(src/ritual/src/cpp_ffi_generator.rs): name allocation, the function
synthesizer (to_ffi_method), default-argument overload expansion,
field-accessor synthesis, inheritance-cast synthesis and the incremental
driver (run). The supporting data types (CppType, CppPath, CppFunction,
CppFfiFunction, ...) are declared in modules that are not part of the
provided sources; they are modelled from the specification, section 3,
and from their use sites in cpp_ffi_generator.rs. The type conversion
oracle (CppType::to_cpp_ffi_type) is an external collaborator per the
specification, section 6; it is modelled as an explicit function
parameter threaded through every synthesizer call.
-/

/-- Modelled from the spec: kind of a pointer-like type (pointer or
reference with constness, section 3 Type variant). -/
inductive CppPointerLikeTypeKind where
  | Pointer
  | Reference
  | RValueReference
deriving DecidableEq

mutual
/-- Modelled from the spec, section 3: a closed variant over Void,
built-in numeric, enum, class (by path, possibly with template
arguments), pointer/reference, function-pointer, and unresolved
template parameters. -/
inductive CppType where
  | Void
  | BuiltInNumeric (name : String)
  | Enum (path : CppPath)
  | Class (path : CppPath)
  | TemplateParameter (nested_level : Nat) (index : Nat)
  | PointerLike (is_const : Bool) (kind : CppPointerLikeTypeKind) (target : CppType)
  | FunctionPointer (return_type : CppType) (arguments : List CppType)
      (allows_variadic_arguments : Bool)

/-- Modelled from the spec, section 3: one name segment of a
Hierarchical Path, optionally carrying template arguments. -/
inductive CppPathItem where
  | mk (name : String) (template_arguments : Option (List CppType))

/-- Modelled from the spec, section 3: a Hierarchical Path is an ordered
sequence of name segments. -/
inductive CppPath where
  | mk (items : List CppPathItem)
end

def CppPathItem.name : CppPathItem → String
  | .mk n _ => n

def CppPathItem.template_arguments : CppPathItem → Option (List CppType)
  | .mk _ t => t

def CppPath.items : CppPath → List CppPathItem
  | .mk l => l

mutual
/-- Structural equality of types, mirroring the derived PartialEq of the
source data model (spec section 3: two paths are equal iff all segments
and template arguments match). -/
def cppTypeBeq : CppType → CppType → Bool
  | .Void, .Void => true
  | .BuiltInNumeric a, .BuiltInNumeric b => a == b
  | .Enum p, .Enum q => cppPathBeq p q
  | .Class p, .Class q => cppPathBeq p q
  | .TemplateParameter a b, .TemplateParameter c d => (a == c) && (b == d)
  | .PointerLike c1 k1 t1, .PointerLike c2 k2 t2 =>
      (c1 == c2) && (decide (k1 = k2)) && cppTypeBeq t1 t2
  | .FunctionPointer r1 a1 v1, .FunctionPointer r2 a2 v2 =>
      cppTypeBeq r1 r2 && cppTypeListBeq a1 a2 && (v1 == v2)
  | _, _ => false
termination_by structural t => t

def cppTypeListBeq : List CppType → List CppType → Bool
  | [], [] => true
  | a :: as, b :: bs => cppTypeBeq a b && cppTypeListBeq as bs
  | _, _ => false
termination_by structural t => t

def cppPathItemBeq : CppPathItem → CppPathItem → Bool
  | .mk n1 t1, .mk n2 t2 =>
      (n1 == n2) && (match t1, t2 with
        | Option.none, Option.none => true
        | Option.some l1, Option.some l2 => cppTypeListBeq l1 l2
        | _, _ => false)
termination_by structural t => t

def cppPathItemListBeq : List CppPathItem → List CppPathItem → Bool
  | [], [] => true
  | a :: as, b :: bs => cppPathItemBeq a b && cppPathItemListBeq as bs
  | _, _ => false
termination_by structural t => t

def cppPathBeq : CppPath → CppPath → Bool
  | .mk xs, .mk ys => cppPathItemListBeq xs ys
termination_by structural t => t
end

/-- Mirrors CppPath::from_item: a path with a single segment. -/
def CppPath.from_item (i : CppPathItem) : CppPath := .mk [i]

/-- Modelled from the spec: CppPathItem::from_good_str parses a segment
string; the names produced by the name allocator contain no separators
or template arguments, so the result is a bare segment. -/
def CppPathItem.from_good_str (s : String) : CppPathItem := .mk s Option.none

/-- Mirrors CppPath::last (the source indexes the final segment; paths
are structurally nonempty there, the empty case yields a default). -/
def CppPath.last (p : CppPath) : CppPathItem :=
  (p.items.getLast?).getD (CppPathItem.mk "" Option.none)

/-- Mirrors CppPath::parent: the path with the final segment removed;
an error if there is no enclosing scope. -/
def CppPath.parent (p : CppPath) : Except String CppPath :=
  match p.items with
  | [] => .error "path has no parent"
  | [_] => .error "path has no parent"
  | _ => .ok (.mk p.items.dropLast)

/-- Total variant of CppPath::parent used where the source calls
class_type().unwrap(); on a corrupt model (a member path with fewer
than two segments) the source panics, here a degenerate path results. -/
def CppPath.parentD (p : CppPath) : CppPath := .mk p.items.dropLast

/-- Modelled from the spec: is_qflags recognizes the bit-flags-style
class given special boundary handling (the QFlags class template). -/
def is_qflags (p : CppPath) : Bool := p.last.name == "QFlags"

/-- Modelled from the spec, section 4.3 step 6: the descriptive base
name of a path, an identifier-safe join of its segments. -/
def CppPath.ascii_caption (p : CppPath) : String :=
  String.intercalate "_" (p.items.map CppPathItem.name)

mutual
/-- Mirrors CppType::is_or_contains_template_parameter, modelled from
the spec, section 4.2: whether any type reachable from this one is an
unresolved template parameter. -/
def CppType.is_or_contains_template_parameter : CppType → Bool
  | .Void => false
  | .BuiltInNumeric _ => false
  | .Enum p => cppPathHasTemplateParameter p
  | .Class p => cppPathHasTemplateParameter p
  | .TemplateParameter _ _ => true
  | .PointerLike _ _ t => t.is_or_contains_template_parameter
  | .FunctionPointer r args _ =>
      r.is_or_contains_template_parameter || cppTypeListHasTemplateParameter args
termination_by structural t => t

def cppTypeListHasTemplateParameter : List CppType → Bool
  | [] => false
  | t :: rest => t.is_or_contains_template_parameter || cppTypeListHasTemplateParameter rest
termination_by structural t => t

def cppPathItemHasTemplateParameter : CppPathItem → Bool
  | .mk _ Option.none => false
  | .mk _ (Option.some args) => cppTypeListHasTemplateParameter args
termination_by structural t => t

def cppPathItemListHasTemplateParameter : List CppPathItem → Bool
  | [] => false
  | i :: rest => cppPathItemHasTemplateParameter i || cppPathItemListHasTemplateParameter rest
termination_by structural t => t

def cppPathHasTemplateParameter : CppPath → Bool
  | .mk items => cppPathItemListHasTemplateParameter items
termination_by structural t => t
end

/-- Mirrors CppType::new_pointer. -/
def CppType.new_pointer (is_const : Bool) (target : CppType) : CppType :=
  .PointerLike is_const .Pointer target

/-- Mirrors CppType::new_reference. -/
def CppType.new_reference (is_const : Bool) (target : CppType) : CppType :=
  .PointerLike is_const .Reference target

/-- Mirrors CppType::is_class. -/
def CppType.is_class : CppType → Bool
  | .Class _ => true
  | _ => false

/-- Decimal digit to character. -/
def digitChar (d : Nat) : Char :=
  match d with
  | 0 => '0' | 1 => '1' | 2 => '2' | 3 => '3' | 4 => '4'
  | 5 => '5' | 6 => '6' | 7 => '7' | 8 => '8' | _ => '9'

/-- Little-endian decimal digits of n, with explicit fuel so that the
definition is structurally recursive and kernel-reducible. -/
def natToDecRev : Nat → Nat → List Char
  | 0, _ => []
  | fuel + 1, n => if n = 0 then [] else digitChar (n % 10) :: natToDecRev fuel (n / 10)

/-- Decimal rendering of a natural number, extensionally the same as
the to_string call in the source. -/
def natToString (n : Nat) : String :=
  if n = 0 then "0" else String.mk (natToDecRev n n).reverse

/-- Mirrors the FfiNameProvider struct: the set of names seen so far
(including names loaded from the persisted output of a prior run) and
the per-run prefix string. -/
structure FfiNameProvider where
  names : List String
  pref : String

/-- The candidate name tried at loop iteration k of create_path:
prefix, underscore, base name, and for k positive the decimal suffix k
(the first iteration tries the bare name). -/
def candidateName (pre base : String) (k : Nat) : String :=
  pre ++ "_" ++ base ++ (if k = 0 then "" else natToString k)

/-- The search loop of FfiNameProvider::create_path: try candidate
indices cur, cur+1, ... until a name not contained in names is found.
The fuel bound is only needed to make the recursion structural; with
fuel larger than the number of stored names the search always succeeds
before exhausting it. -/
def findFreeName (names : List String) (pre base : String) : Nat → Nat → String
  | cur, 0 => candidateName pre base cur
  | cur, fuel + 1 =>
      let c := candidateName pre base cur
      if names.contains c then findFreeName names pre base (cur + 1) fuel else c

/-- Mirrors FfiNameProvider::create_path: find the first unseen
candidate name, reserve it immediately, and return it as a single
segment path. -/
def FfiNameProvider.create_path (np : FfiNameProvider) (base : String) :
    CppPath × FfiNameProvider :=
  let full_name := findFreeName np.names np.pref base 0 (np.names.length + 1)
  (CppPath.from_item (CppPathItem.from_good_str full_name),
   { np with names := full_name :: np.names })

/-- Iterated create_path, used to state run-wide uniqueness. -/
def createPaths (np : FfiNameProvider) : List String → List CppPath × FfiNameProvider
  | [] => ([], np)
  | r :: rs =>
      let (p, np1) := np.create_path r
      let (ps, np2) := createPaths np1 rs
      (p :: ps, np2)

/-- The name of a freshly allocated single segment path. -/
def CppPath.soleName : CppPath → String
  | .mk [i] => i.name
  | _ => ""

/-- Mirrors CppVisibility (declared in the provided cpp_data sources). -/
inductive CppVisibility where
  | Public
  | Protected
  | Private
deriving DecidableEq

/-- Modelled from the spec, section 3: whether a member function is a
constructor, destructor, or a regular function. -/
inductive CppFunctionKind where
  | Regular
  | Constructor
  | Destructor
deriving DecidableEq

/-- Mirrors CppFunctionKind::is_constructor. -/
def CppFunctionKind.is_constructor : CppFunctionKind → Bool
  | .Constructor => true
  | _ => false

/-- Modelled from the spec, section 3: the membership data of a member
function (staticness, constness, virtuality, visibility, signal flag,
kind). -/
structure CppFunctionMemberData where
  kind : CppFunctionKind
  is_virtual : Bool
  is_const : Bool
  is_static : Bool
  visibility : CppVisibility
  is_signal : Bool

/-- Modelled from the spec, section 3: one formal argument of a
callable. -/
structure CppFunctionArgument where
  name : String
  argument_type : CppType
  has_default_value : Bool

/-- Modelled from the spec, section 3: a free or member function. The
fields never read by the generator (operator, declaration_code, doc)
are omitted. -/
structure CppFunction where
  path : CppPath
  member : Option CppFunctionMemberData
  return_type : CppType
  arguments : List CppFunctionArgument
  allows_variadic_arguments : Bool

/-- Mirrors CppFunction::class_type: the owning class path of a member
function (the parent of its path). -/
def CppFunction.class_type (f : CppFunction) : Except String CppPath :=
  match f.member with
  | Option.some _ => f.path.parent
  | Option.none => .error "not a member function"

/-- Total owning-class path, used where the source writes
class_type().unwrap() (the source panics on a corrupt model there). -/
def CppFunction.class_type_total (f : CppFunction) : CppPath := f.path.parentD

/-- Mirrors CppFunction::is_destructor. -/
def CppFunction.is_destructor (f : CppFunction) : Bool :=
  match f.member with
  | Option.some m => decide (m.kind = .Destructor)
  | Option.none => false

/-- Mirrors CppClassField as used by the generator: the field path (its
parent is the owning class), the field type, visibility and staticness. -/
structure CppClassField where
  path : CppPath
  field_type : CppType
  visibility : CppVisibility
  is_static : Bool

/-- Mirrors CppBaseSpecifier: one Base Relationship item. -/
structure CppBaseSpecifier where
  derived_class_type : CppPath
  base_class_type : CppPath
  base_index : Nat
  is_virtual : Bool
  visibility : CppVisibility

/-- Modelled from the spec, section 3: the conversion tag of a Boundary
Type. -/
inductive CppToFfiTypeConversion where
  | NoChange
  | ValueToPointer
  | ReferenceToPointer
  | QFlagsToInt
deriving DecidableEq

/-- Mirrors CppFfiType: an original type paired with its ABI-safe
converted form and a conversion tag (produced by the Type Conversion
Oracle). -/
structure CppFfiType where
  original_type : CppType
  ffi_type : CppType
  conversion : CppToFfiTypeConversion

/-- Mirrors CppFfiType::void. -/
def CppFfiType.void : CppFfiType :=
  { original_type := .Void, ffi_type := .Void, conversion := .NoChange }

/-- Mirrors CppFfiArgumentMeaning (behavior fixed by the provided test
file tests/cpp_ffi_data.rs). -/
inductive CppFfiArgumentMeaning where
  | This
  | Argument (index : Nat)
  | ReturnValue
deriving DecidableEq

/-- Mirrors CppFfiArgumentMeaning::is_argument. -/
def CppFfiArgumentMeaning.is_argument : CppFfiArgumentMeaning → Bool
  | .Argument _ => true
  | _ => false

/-- Mirrors CppFfiFunctionArgument. -/
structure CppFfiFunctionArgument where
  name : String
  argument_type : CppFfiType
  meaning : CppFfiArgumentMeaning

/-- The this-pointer boundary argument with a given converted type. -/
def thisPtrArg (c : CppFfiType) : CppFfiFunctionArgument :=
  { name := "this_ptr", argument_type := c, meaning := .This }

/-- The synthesized return slot boundary argument with a given
converted type. -/
def outputArg (c : CppFfiType) : CppFfiFunctionArgument :=
  { name := "output", argument_type := c, meaning := .ReturnValue }

/-- Mirrors CppCast: the cast kind tag of a synthesized cast function. -/
inductive CppCast where
  | Static ( is_unsafe : Bool) (base_index : Nat)
  | Dynamic
deriving DecidableEq

/-- Mirrors CppCast::cpp_method_name. -/
def CppCast.cpp_method_name : CppCast → String
  | .Static _ _ => "static_cast"
  | .Dynamic => "dynamic_cast"

/-- Mirrors CppFieldAccessorType. -/
inductive CppFieldAccessorType where
  | CopyGetter
  | ConstRefGetter
  | MutRefGetter
  | Setter
deriving DecidableEq

/-- Mirrors CppFfiFunctionKind: the back-reference of a Boundary
Function to its originating callable, with the omitted trailing
argument count for overload expansion and the cast kind for casts. -/
inductive CppFfiFunctionKind where
  | Function (cpp_function : CppFunction) (omitted_arguments : Option Nat)
      (cast : Option CppCast)
  | FieldAccessor (field : CppClassField) (accessor_type : CppFieldAccessorType)

/-- Mirrors ReturnValueAllocationPlace. -/
inductive ReturnValueAllocationPlace where
  | Stack
  | Heap
  | NotApplicable
deriving DecidableEq

/-- Mirrors CppFfiFunction: one Boundary Function. -/
structure CppFfiFunction where
  arguments : List CppFfiFunctionArgument
  return_type : CppFfiType
  path : CppPath
  allocation_place : ReturnValueAllocationPlace
  kind : CppFfiFunctionKind

/-- Mirrors CppFfiItem as used by this generator (the slot-wrapper
variant belongs to the out-of-scope extension). -/
inductive CppFfiItem where
  | Function (function : CppFfiFunction)

/-- Mirrors CppFfiItem::from_function. -/
def CppFfiItem.from_function (f : CppFfiFunction) : CppFfiItem := .Function f

/-- Mirrors CppFfiItem::path. -/
def CppFfiItem.path : CppFfiItem → CppPath
  | .Function f => f.path

def CppFfiItem.ffi_function : CppFfiItem → CppFfiFunction
  | .Function f => f

/-- Mirrors CppTypeRole: whether a type is converted in return
position. -/
inductive CppTypeRole where
  | ReturnType
  | NotReturnType
deriving DecidableEq

/-- The Type Conversion Oracle (external collaborator, spec section 6):
converts one structural type into a Boundary Type or fails. -/
def FfiTypeOracle : Type := CppType → CppTypeRole → Except String CppFfiType

/-- Mirrors the ascii_caption match at the top of to_ffi_method: the
descriptive name a Boundary Function is allocated under (accessor kinds
mangle as field, field_mut, set_field). -/
def kindAsciiCaption : CppFfiFunctionKind → String
  | .Function f _ _ => f.path.ascii_caption
  | .FieldAccessor field accessor_type =>
      let field_caption := field.path.ascii_caption
      match accessor_type with
      | .CopyGetter => field_caption
      | .ConstRefGetter => field_caption
      | .MutRefGetter => field_caption ++ "_mut"
      | .Setter => "set_" ++ field_caption

/-- Mirrors the this_arg_type match of to_ffi_method: a non-static
member function that is not a constructor, or an accessor of a
non-static field, receives a leading this-pointer whose constness comes
from the method or from the accessor kind. -/
def thisArgType : CppFfiFunctionKind → Except String (Option CppType)
  | .Function f _ _ =>
      match f.member with
      | Option.some info =>
          if !info.is_static && !(info.kind = .Constructor) then
            .ok (Option.some (CppType.new_pointer info.is_const
              (CppType.Class f.class_type_total)))
          else .ok Option.none
      | Option.none => .ok Option.none
  | .FieldAccessor field accessor_type =>
      if field.is_static then .ok Option.none
      else
        match field.path.parent with
        | .error e => .error e
        | .ok par =>
            let is_const :=
              match accessor_type with
              | .CopyGetter => true
              | .ConstRefGetter => true
              | .MutRefGetter => false
              | .Setter => false
            .ok (Option.some (CppType.new_pointer is_const (CppType.Class par)))

/-- Converts the optional this-pointer type through the oracle into the
leading boundary argument list. -/
def buildThisArgs (oracle : FfiTypeOracle) : Option CppType →
    Except String (List CppFfiFunctionArgument)
  | Option.none => .ok []
  | Option.some t =>
      match oracle t .NotReturnType with
      | .error e => .error e
      | .ok c => .ok [thisPtrArg c]

/-- Mirrors the normal_args match of to_ffi_method: variadic callables
are rejected; a setter receives a single synthesized value argument of
the field type; getters receive none. -/
def normalArgs : CppFfiFunctionKind → Except String (List CppFunctionArgument)
  | .Function f _ _ =>
      if f.allows_variadic_arguments then .error "Variable arguments are not supported"
      else .ok f.arguments
  | .FieldAccessor field accessor_type =>
      if accessor_type = .Setter then
        .ok [{ name := "value", argument_type := field.field_type,
               has_default_value := false }]
      else .ok []

/-- Mirrors the destructor special case of to_ffi_method: a destructor
carries the allocation place its class constructors use (stack if the
class is movable, heap otherwise); every other callable keeps the
initial NotApplicable until return handling. -/
def dtorAllocationPlace (kind : CppFfiFunctionKind) (movable_types : List CppPath) :
    ReturnValueAllocationPlace :=
  match kind with
  | .Function f _ _ =>
      if f.is_destructor then
        if movable_types.any (fun t => cppPathBeq t f.class_type_total) then .Stack
        else .Heap
      else .NotApplicable
  | _ => .NotApplicable

/-- Converts the positional arguments through the oracle in order,
tagging each with its original formal-argument index. -/
def convertArguments (oracle : FfiTypeOracle) :
    List CppFunctionArgument → Nat → Except String (List CppFfiFunctionArgument)
  | [], _ => .ok []
  | a :: rest, index =>
      match oracle a.argument_type .NotReturnType with
      | .error e => .error e
      | .ok c =>
          match convertArguments oracle rest (index + 1) with
          | .error e => .error e
          | .ok restc =>
              .ok ({ name := a.name, argument_type := c,
                     meaning := .Argument index } :: restc)

/-- Mirrors the real_return_type match of to_ffi_method: constructors
return the constructed class, accessors derive from the field type
(reference getters add a reference, the setter returns void), and every
other callable keeps its declared return type. -/
def realReturnType : CppFfiFunctionKind → CppType
  | .Function f _ _ =>
      match f.member with
      | Option.some info =>
          if info.kind.is_constructor then CppType.Class f.class_type_total
          else f.return_type
      | Option.none => f.return_type
  | .FieldAccessor field accessor_type =>
      match accessor_type with
      | .CopyGetter => field.field_type
      | .ConstRefGetter => CppType.new_reference true field.field_type
      | .MutRefGetter => CppType.new_reference false field.field_type
      | .Setter => .Void

/-- Mirrors the return handling match at the end of to_ffi_method: a
class return type that is not QFlags either moves into a trailing
synthesized return slot with void return and stack allocation (movable
class) or stays the direct return type with heap allocation; QFlags and
non-class types return directly with the allocation place left from the
destructor handling. -/
def finishFfiFunction (kind : CppFfiFunctionKind) (movable_types : List CppPath)
    (path : CppPath) (args : List CppFfiFunctionArgument)
    (rrt : CppType) (rrt_ffi : CppFfiType) : CppFfiFunction :=
  match rrt with
  | CppType.Class p =>
      if is_qflags p then
        { arguments := args, return_type := rrt_ffi, path := path,
          allocation_place := dtorAllocationPlace kind movable_types, kind := kind }
      else if movable_types.any (fun t => cppPathBeq t p) then
        { arguments := args ++ [outputArg rrt_ffi],
          return_type := CppFfiType.void, path := path,
          allocation_place := .Stack, kind := kind }
      else
        { arguments := args, return_type := rrt_ffi, path := path,
          allocation_place := .Heap, kind := kind }
  | _ =>
      { arguments := args, return_type := rrt_ffi, path := path,
        allocation_place := dtorAllocationPlace kind movable_types, kind := kind }

/-- The failure-or-result part of to_ffi_method, with the already
allocated unique path passed in (the source allocates the name before
any of these checks, so a failed item still consumes its name). -/
def to_ffi_method_core (oracle : FfiTypeOracle) (kind : CppFfiFunctionKind)
    (movable_types : List CppPath) (path : CppPath) : Except String CppFfiFunction :=
  match thisArgType kind with
  | .error e => .error e
  | .ok othis =>
      match buildThisArgs oracle othis with
      | .error e => .error e
      | .ok this_args =>
          match normalArgs kind with
          | .error e => .error e
          | .ok nargs =>
              match convertArguments oracle nargs 0 with
              | .error e => .error e
              | .ok conv =>
                  match oracle (realReturnType kind) .ReturnType with
                  | .error e => .error e
                  | .ok rrt_ffi =>
                      .ok (finishFfiFunction kind movable_types path
                        (this_args ++ conv) (realReturnType kind) rrt_ffi)

/-- Mirrors to_ffi_method: allocate the unique path, then build the
boundary signature (this-pointer, converted positional arguments,
return-value handling). The updated name allocator is returned even on
failure, as the source mutates it in place before failing. -/
def to_ffi_method (oracle : FfiTypeOracle) (kind : CppFfiFunctionKind)
    (movable_types : List CppPath) (np : FfiNameProvider) :
    Except String CppFfiFunction × FfiNameProvider :=
  let pr := np.create_path (kindAsciiCaption kind)
  (to_ffi_method_core oracle kind movable_types pr.1, pr.2)

/-- Mirrors create_cast_method: build the synthetic callable for a
static_cast or dynamic_cast from type src to type dst (a single pointer
argument named ptr, returning the destination pointer type) and run it
through the Function Synthesizer with an empty Movable-Type Set, since
all cast methods operate on pointers. -/
def castMethod (cast : CppCast) (src dst : CppType) : CppFunction :=
  { path := CppPath.from_item (CppPathItem.mk cast.cpp_method_name
      (Option.some [dst])),
    member := Option.none,
    return_type := dst,
    arguments := [{ name := "ptr", argument_type := src,
                    has_default_value := false }],
    allows_variadic_arguments := false }

def create_cast_method (oracle : FfiTypeOracle) (cast : CppCast)
    (src dst : CppType) (np : FfiNameProvider) :
    Except String CppFfiItem × FfiNameProvider :=
  let r := to_ffi_method oracle
    (.Function (castMethod cast src dst) Option.none (Option.some cast)) [] np
  (r.1.map CppFfiItem.from_function, r.2)

/-- Mirrors generate_casts_one: the three cast Boundary Functions for
one derived/base pair (unsafe static base to derived, safe static
derived to base, dynamic base to derived). -/
def generate_casts_one (oracle : FfiTypeOracle) (target_type base_type : CppPath)
    (direct_base_index : Nat) (np : FfiNameProvider) :
    Except String (List CppFfiItem) × FfiNameProvider :=
  let target_ptr_type : CppType :=
    .PointerLike false .Pointer (.Class target_type)
  let base_ptr_type : CppType :=
    .PointerLike false .Pointer (.Class base_type)
  match create_cast_method oracle (.Static true direct_base_index)
      base_ptr_type target_ptr_type np with
  | (.error e, np1) => (.error e, np1)
  | (.ok m1, np1) =>
      match create_cast_method oracle (.Static false direct_base_index)
          target_ptr_type base_ptr_type np1 with
      | (.error e, np2) => (.error e, np2)
      | (.ok m2, np2) =>
          match create_cast_method oracle .Dynamic
              base_ptr_type target_ptr_type np2 with
          | (.error e, np3) => (.error e, np3)
          | (.ok m3, np3) => (.ok [m1, m2, m3], np3)

/-- Mirrors generate_casts: casts for one Base Relationship item. -/
def generate_casts (oracle : FfiTypeOracle) (base : CppBaseSpecifier)
    (np : FfiNameProvider) : Except String (List CppFfiItem) × FfiNameProvider :=
  generate_casts_one oracle base.derived_class_type base.base_class_type
    base.base_index np

/-- Mirrors the while loop of generate_ffi_methods_for_method: walk the
reversed argument list, and as long as the popped argument carries a
default value, emit a Boundary Function for the shortened copy with
omitted = number of arguments dropped so far; stop at the first
argument without a default value. -/
def overloadLoop (oracle : FfiTypeOracle) (movable_types : List CppPath)
    (method : CppFunction) :
    List CppFunctionArgument → FfiNameProvider →
    Except String (List CppFfiItem) × FfiNameProvider
  | [], np => (.ok [], np)
  | arg :: rest, np =>
      if arg.has_default_value then
        let method_copy := { method with arguments := rest.reverse }
        match to_ffi_method oracle
            (.Function method_copy
              (Option.some (method.arguments.length - rest.length))
              Option.none)
            movable_types np with
        | (.error e, np1) => (.error e, np1)
        | (.ok m, np1) =>
            match overloadLoop oracle movable_types method rest np1 with
            | (.error e, np2) => (.error e, np2)
            | (.ok ms, np2) => (.ok (CppFfiItem.from_function m :: ms), np2)
      else (.ok [], np)

/-- Mirrors generate_ffi_methods_for_method: the full-arity Boundary
Function first (omitted absent), then one more per dropped trailing
defaulted argument. -/
def generate_ffi_methods_for_method (oracle : FfiTypeOracle)
    (method : CppFunction) (movable_types : List CppPath)
    (np : FfiNameProvider) :
    Except String (List CppFfiItem) × FfiNameProvider :=
  match to_ffi_method oracle (.Function method Option.none Option.none)
      movable_types np with
  | (.error e, np1) => (.error e, np1)
  | (.ok first, np1) =>
      match method.arguments.getLast? with
      | Option.some last_arg =>
          if last_arg.has_default_value then
            match overloadLoop oracle movable_types method
                method.arguments.reverse np1 with
            | (.error e, np2) => (.error e, np2)
            | (.ok ms, np2) =>
                (.ok (CppFfiItem.from_function first :: ms), np2)
          else (.ok [CppFfiItem.from_function first], np1)
      | Option.none => (.ok [CppFfiItem.from_function first], np1)

/-- Mirrors generate_field_accessors: a public class-typed field gets a
const-ref getter and a mutable-ref getter (classes may be non-copyable,
so no copy getter), any other public field gets a copy getter; both get
a setter; non-public fields get nothing. -/
def generate_field_accessors (oracle : FfiTypeOracle) (field : CppClassField)
    (movable_types : List CppPath) (np : FfiNameProvider) :
    Except String (List CppFfiItem) × FfiNameProvider :=
  if field.visibility = .Public then
    if field.field_type.is_class then
      match to_ffi_method oracle (.FieldAccessor field .ConstRefGetter)
          movable_types np with
      | (.error e, np1) => (.error e, np1)
      | (.ok m1, np1) =>
          match to_ffi_method oracle (.FieldAccessor field .MutRefGetter)
              movable_types np1 with
          | (.error e, np2) => (.error e, np2)
          | (.ok m2, np2) =>
              match to_ffi_method oracle (.FieldAccessor field .Setter)
                  movable_types np2 with
              | (.error e, np3) => (.error e, np3)
              | (.ok m3, np3) =>
                  (.ok [CppFfiItem.from_function m1, CppFfiItem.from_function m2,
                        CppFfiItem.from_function m3], np3)
    else
      match to_ffi_method oracle (.FieldAccessor field .CopyGetter)
          movable_types np with
      | (.error e, np1) => (.error e, np1)
      | (.ok m1, np1) =>
          match to_ffi_method oracle (.FieldAccessor field .Setter)
              movable_types np1 with
          | (.error e, np2) => (.error e, np2)
          | (.ok m2, np2) =>
              (.ok [CppFfiItem.from_function m1, CppFfiItem.from_function m2], np2)
  else (.ok [], np)

/-- Mirrors CppTypeDeclarationKind as read by the generator. -/
inductive CppTypeDeclarationKind where
  | Enum
  | Class (is_movable : Bool)

/-- Modelled from the spec, section 3: one type declaration. -/
structure CppTypeDeclaration where
  path : CppPath
  kind : CppTypeDeclarationKind

/-- Mirrors CppItemData: the tagged union of discovered API items. The
payloads of enum-value and namespace items are never read by this
generator and are reduced to their paths. -/
inductive CppItemData where
  | Type (type_data : CppTypeDeclaration)
  | EnumValue (path : CppPath)
  | Namespace (path : CppPath)
  | Function (function : CppFunction)
  | ClassField (field : CppClassField)
  | ClassBase (base : CppBaseSpecifier)

/-- Mirrors CppItemData::all_involved_types, modelled from the spec,
section 4.2: the types reachable from an item (argument and return
types of a function, the field type of a field, the two class types of
a base relationship, the declared class type of a type declaration). -/
def CppItemData.all_involved_types : CppItemData → List CppType
  | .Type td => [CppType.Class td.path]
  | .EnumValue _ => []
  | .Namespace _ => []
  | .Function f => f.arguments.map CppFunctionArgument.argument_type ++ [f.return_type]
  | .ClassField field => [field.field_type]
  | .ClassBase base =>
      [CppType.Class base.derived_class_type, CppType.Class base.base_class_type]

/-- Mirrors should_process_item: a function item is skipped when its
owning class is the specially handled QFlags class, when it is a
private, protected or signal member, or when its path carries explicit
template arguments; any item is skipped when a reachable type contains
an unresolved template parameter. -/
def should_process_item (item : CppItemData) : Bool :=
  (match item with
   | .Function method =>
       (match method.class_type with
        | .ok class_name => !is_qflags class_name
        | .error _ => true)
       && (match method.member with
           | Option.some membership =>
               !(membership.visibility = .Private)
               && !(membership.visibility = .Protected)
               && !membership.is_signal
           | Option.none => true)
       && !(method.path.last.template_arguments).isSome
   | _ => true)
  && !(item.all_involved_types.any CppType.is_or_contains_template_parameter)

/-- Mirrors one entry of the database item list: the item data together
with its persisted Processed Flag. -/
structure CppDatabaseItem where
  cpp_data : CppItemData
  is_cpp_ffi_processed : Bool

/-- Mirrors the slice of the current database read and written by this
generator: the discovered items with their flags, and the persisted
Boundary Function collection. -/
structure Database where
  cpp_items : List CppDatabaseItem
  ffi_items : List CppFfiItem

/-- Mirrors the movable_types collection at the top of run: the paths
of all class type declarations marked movable. -/
def movableTypes (items : List CppItemData) : List CppPath :=
  items.filterMap fun d =>
    match d with
    | .Type td =>
        match td.kind with
        | .Class is_movable =>
            if is_movable then Option.some td.path else Option.none
        | _ => Option.none
    | _ => Option.none

/-- Modelled from the spec, section 6: the rendered code of a persisted
path, used only to seed the name allocator with previously generated
names (the spec derives the generated-name set by replaying previously
generated paths; generated paths are single segments, rendered as their
name). -/
def pathToCppCode (p : CppPath) : String :=
  String.intercalate "::" (p.items.map CppPathItem.name)

/-- Mirrors FfiNameProvider::new: the run prefix derived from the crate
name and the name set seeded from all persisted Boundary Functions. -/
def FfiNameProvider.new (crate_name : String) (db : Database) : FfiNameProvider :=
  { pref := "ctr_" ++ crate_name ++ "_ffi",
    names := db.ffi_items.map (fun f => pathToCppCode f.path) }

/-- Mirrors the per-item dispatch inside run: type, enum-value and
namespace items produce no Boundary Functions; functions, fields and
base relationships go through their generators. -/
def generate_ffi_items (oracle : FfiTypeOracle) (movable_types : List CppPath)
    (d : CppItemData) (np : FfiNameProvider) :
    Except String (List CppFfiItem) × FfiNameProvider :=
  match d with
  | .Type _ => (.ok [], np)
  | .EnumValue _ => (.ok [], np)
  | .Namespace _ => (.ok [], np)
  | .Function method => generate_ffi_methods_for_method oracle method movable_types np
  | .ClassField field => generate_field_accessors oracle field movable_types np
  | .ClassBase base => generate_casts oracle base np

/-- Mirrors the item loop of run: skip items already processed, skip
items rejected by the Eligibility Filter, and on success append the
produced Boundary Functions and set the Processed Flag; on a per-item
failure leave the item untouched (the name allocator keeps any names
consumed before the failure, as in the source). Returns the updated
item list, the appended Boundary Functions and the final allocator. -/
def processItems (oracle : FfiTypeOracle) (movable_types : List CppPath) :
    List CppDatabaseItem → FfiNameProvider →
    List CppDatabaseItem × List CppFfiItem × FfiNameProvider
  | [], np => ([], [], np)
  | item :: rest, np =>
      if item.is_cpp_ffi_processed then
        let r := processItems oracle movable_types rest np
        (item :: r.1, r.2.1, r.2.2)
      else if !should_process_item item.cpp_data then
        let r := processItems oracle movable_types rest np
        (item :: r.1, r.2.1, r.2.2)
      else
        match generate_ffi_items oracle movable_types item.cpp_data np with
        | (.error _, np1) =>
            let r := processItems oracle movable_types rest np1
            (item :: r.1, r.2.1, r.2.2)
        | (.ok produced, np1) =>
            let r := processItems oracle movable_types rest np1
            ({ item with is_cpp_ffi_processed := true } :: r.1,
             produced ++ r.2.1, r.2.2)

/-- Mirrors run: compute the Movable-Type Set from all discovered type
declarations, seed the name allocator from the persisted Boundary
Functions, sweep every item once, and append the results. -/
def run (oracle : FfiTypeOracle) (crate_name : String) (db : Database) : Database :=
  let movable_types := movableTypes (db.cpp_items.map CppDatabaseItem.cpp_data)
  let np := FfiNameProvider.new crate_name db
  let r := processItems oracle movable_types db.cpp_items np
  { cpp_items := r.1, ffi_items := db.ffi_items ++ r.2.1 }

/-- A concrete Type Conversion Oracle instance for evaluation: every
type converts unchanged. -/
def idOracle : FfiTypeOracle := fun t _ =>
  .ok { original_type := t, ffi_type := t, conversion := .NoChange }

/-- Boolean success of an Except result. -/
def exceptOk {α : Type} (e : Except String α) : Bool :=
  match e with
  | .ok _ => true
  | .error _ => false

/-- The omitted trailing argument count recorded in a Boundary
Function (the full-arity function stores no count, read as zero). -/
def omittedCountOf (f : CppFfiFunction) : Nat :=
  match f.kind with
  | .Function _ omitted _ => omitted.getD 0
  | _ => 0

/-- The number of positional arguments of a Boundary Function. -/
def positionalArgCount (f : CppFfiFunction) : Nat :=
  f.arguments.countP (fun a => a.meaning.is_argument)

/-- The cast tag of a Boundary Function item, when it is a cast. -/
def castOf (i : CppFfiItem) : Option CppCast :=
  match i.ffi_function.kind with
  | .Function _ _ cast => cast
  | _ => Option.none

/-- The single formal argument type of the synthetic callable behind a
cast Boundary Function (the source pointer type of the cast). -/
def castSourceType (i : CppFfiItem) : Option CppType :=
  match i.ffi_function.kind with
  | .Function f _ _ => (f.arguments.head?).map CppFunctionArgument.argument_type
  | _ => Option.none

/-- The return type of the synthetic callable behind a cast Boundary
Function (the destination pointer type of the cast). -/
def castDestType (i : CppFfiItem) : Option CppType :=
  match i.ffi_function.kind with
  | .Function f _ _ => Option.some f.return_type
  | _ => Option.none

/-- The accessor kind of a Boundary Function item, when it is a field
accessor. -/
def accessorTypeOf (i : CppFfiItem) : Option CppFieldAccessorType :=
  match i.ffi_function.kind with
  | .FieldAccessor _ accessor_type => Option.some accessor_type
  | _ => Option.none

/-- Whether a callable description is a destructor. -/
def kindIsDestructor : CppFfiFunctionKind → Bool
  | .Function f _ _ => f.is_destructor
  | _ => false

/-- The length of the maximal all-default prefix of a list. -/
def countDefaults : List CppFunctionArgument → Nat
  | [] => 0
  | a :: rest => if a.has_default_value then countDefaults rest + 1 else 0

/-- The number of trailing formal arguments carrying default values. -/
def trailingDefaultCount (args : List CppFunctionArgument) : Nat :=
  countDefaults args.reverse

/-- The value of a little-endian decimal digit list. -/
def charToDigit (c : Char) : Nat := c.toNat - 48

def decRevVal : List Char → Nat
  | [] => 0
  | c :: rest => charToDigit c + 10 * decRevVal rest

/-- Left inverse of natToString. -/
def decodeNat (s : String) : Nat := decRevVal s.data.reverse

/-- A single segment path without template arguments, for concrete
examples. -/
def exPath1 (s : String) : CppPath := CppPath.mk [CppPathItem.mk s Option.none]

/-- A two segment path without template arguments, for concrete
examples. -/
def exPath2 (a b : String) : CppPath :=
  CppPath.mk [CppPathItem.mk a Option.none, CppPathItem.mk b Option.none]

/-- An empty name allocator with a fixed run prefix, for concrete
examples. -/
def npExample : FfiNameProvider := { names := [], pref := "ctr_qt_ffi" }

/-- A member record for concrete examples. -/
def exMember (kind : CppFunctionKind) (is_const : Bool) : CppFunctionMemberData :=
  { kind := kind, is_virtual := false, is_const := is_const, is_static := false,
    visibility := .Public, is_signal := false }

/-- A placeholder Boundary Function used when extracting from a failed
result in concrete examples. -/
def junkFfiFunction : CppFfiFunction :=
  { arguments := [], return_type := CppFfiType.void, path := exPath1 "junk",
    allocation_place := .NotApplicable,
    kind := .Function
      { path := exPath1 "junk", member := Option.none, return_type := .Void,
        arguments := [], allows_variadic_arguments := false }
      Option.none Option.none }

def extractOk (e : Except String CppFfiFunction) : CppFfiFunction :=
  match e with
  | .ok r => r
  | .error _ => junkFfiFunction

def extractOkList (e : Except String (List CppFfiItem)) : List CppFfiItem :=
  match e with
  | .ok r => r
  | .error _ => []

/-- Concrete input for the movable-return convention: a free function
returning the movable class Widget. -/
def w1Fun : CppFunction :=
  { path := exPath1 "make_widget", member := Option.none,
    return_type := CppType.Class (exPath1 "Widget"), arguments := [],
    allows_variadic_arguments := false }

def w1Res : CppFfiFunction :=
  extractOk (to_ffi_method idOracle (.Function w1Fun Option.none Option.none)
    [exPath1 "Widget"] npExample).1

/-- Concrete input refuting the unrestricted movable-return claim: a
free function returning the QFlags class while that class path is in
the Movable-Type Set. -/
def c1xFun : CppFunction :=
  { path := exPath1 "flags_of", member := Option.none,
    return_type := CppType.Class (exPath1 "QFlags"), arguments := [],
    allows_variadic_arguments := false }

def c1xRes : CppFfiFunction :=
  extractOk (to_ffi_method idOracle (.Function c1xFun Option.none Option.none)
    [exPath1 "QFlags"] npExample).1

/-- Concrete constructor and destructor of the movable class Widget. -/
def w2Ctor : CppFunction :=
  { path := exPath2 "Widget" "Widget", member := Option.some (exMember .Constructor false),
    return_type := .Void, arguments := [], allows_variadic_arguments := false }

def w2Dtor : CppFunction :=
  { path := exPath2 "Widget" "destroy", member := Option.some (exMember .Destructor false),
    return_type := .Void, arguments := [], allows_variadic_arguments := false }

def w2Rc : CppFfiFunction :=
  extractOk (to_ffi_method idOracle (.Function w2Ctor Option.none Option.none)
    [exPath1 "Widget"] npExample).1

def w2Rd : CppFfiFunction :=
  extractOk (to_ffi_method idOracle (.Function w2Dtor Option.none Option.none)
    [exPath1 "Widget"] npExample).1

/-- Concrete input for overload expansion: a free function with two
arguments of which the last carries a default value. -/
def w3Fun : CppFunction :=
  { path := exPath1 "resize", member := Option.none, return_type := .Void,
    arguments :=
      [{ name := "w", argument_type := .BuiltInNumeric "int", has_default_value := false },
       { name := "h", argument_type := .BuiltInNumeric "int", has_default_value := true }],
    allows_variadic_arguments := false }

def w3Items : List CppFfiItem :=
  extractOkList (generate_ffi_methods_for_method idOracle w3Fun [] npExample).1

/-- Concrete Base Relationship for cast generation. -/
def w4Base : CppBaseSpecifier :=
  { derived_class_type := exPath1 "Derived", base_class_type := exPath1 "Base",
    base_index := 2, is_virtual := false, visibility := .Public }

def w4Items : List CppFfiItem :=
  extractOkList (generate_casts idOracle w4Base npExample).1

/-- Concrete non-static const member function of Widget with one
formal argument. -/
def w5Fun : CppFunction :=
  { path := exPath2 "Widget" "resize", member := Option.some (exMember .Regular true),
    return_type := .Void,
    arguments :=
      [{ name := "w", argument_type := .BuiltInNumeric "int", has_default_value := false }],
    allows_variadic_arguments := false }

def w5Res : CppFfiFunction :=
  extractOk (to_ffi_method idOracle (.Function w5Fun Option.none Option.none)
    [] npExample).1

/-- Concrete public non-class field. -/
def w6Field : CppClassField :=
  { path := exPath2 "Widget" "count", field_type := .BuiltInNumeric "int",
    visibility := .Public, is_static := false }

def w6Items : List CppFfiItem :=
  extractOkList (generate_field_accessors idOracle w6Field [] npExample).1

/-- Concrete input for the QFlags return bypass: a free function
returning the QFlags class with that class in the Movable-Type Set. -/
def w9Fun : CppFunction :=
  { path := exPath1 "options", member := Option.none,
    return_type := CppType.Class (exPath1 "QFlags"), arguments := [],
    allows_variadic_arguments := false }

def w9Res : CppFfiFunction :=
  extractOk (to_ffi_method idOracle (.Function w9Fun Option.none Option.none)
    [exPath1 "QFlags"] npExample).1

/-- Concrete variadic function item (its synthesis fails) and a
following namespace item, for the all-or-nothing driver claim. -/
def w10BadFun : CppFunction :=
  { path := exPath1 "vararg", member := Option.none, return_type := .Void,
    arguments := [], allows_variadic_arguments := true }

def w10Item : CppDatabaseItem :=
  { cpp_data := .Function w10BadFun, is_cpp_ffi_processed := false }

def w10Post : CppDatabaseItem :=
  { cpp_data := .Namespace (exPath1 "ns"), is_cpp_ffi_processed := false }

/-- An item is settled for a given oracle and Movable-Type Set when a
rerun cannot produce output for it: its flag is set, the filter skips
it, or its generation fails regardless of allocator state. -/
def settledItem (oracle : FfiTypeOracle) (movable_types : List CppPath)
    (it : CppDatabaseItem) : Prop :=
  it.is_cpp_ffi_processed = true ∨
  should_process_item it.cpp_data = false ∨
  ∀ np, exceptOk (generate_ffi_items oracle movable_types it.cpp_data np).1 = false

/-- Whether the Function Synthesizer succeeds on a callable: success
depends only on the callable description and the oracle, never on the
name allocator state. -/
def synthesisOk (oracle : FfiTypeOracle) (kind : CppFfiFunctionKind) : Bool :=
  match thisArgType kind with
  | .error _ => false
  | .ok othis =>
    match buildThisArgs oracle othis with
    | .error _ => false
    | .ok _ =>
      match normalArgs kind with
      | .error _ => false
      | .ok nargs =>
        match convertArguments oracle nargs 0 with
        | .error _ => false
        | .ok _ =>
          match oracle (realReturnType kind) .ReturnType with
          | .error _ => false
          | .ok _ => true

/-- Whether the overload expansion loop succeeds. -/
def overloadLoopOk (oracle : FfiTypeOracle) (method : CppFunction) :
    List CppFunctionArgument → Bool
  | [] => true
  | arg :: rest =>
    if arg.has_default_value then
      synthesisOk oracle (.Function { method with arguments := rest.reverse }
        (Option.some (method.arguments.length - rest.length)) Option.none) &&
      overloadLoopOk oracle method rest
    else true

/-- Whether the Overload Expander succeeds on a function item. -/
def genMethodsOk (oracle : FfiTypeOracle) (method : CppFunction) : Bool :=
  synthesisOk oracle (.Function method Option.none Option.none) &&
  (match method.arguments.getLast? with
   | Option.some last_arg =>
       if last_arg.has_default_value then
         overloadLoopOk oracle method method.arguments.reverse
       else true
   | Option.none => true)

/-- Whether one cast synthesis succeeds. -/
def castOkOne (oracle : FfiTypeOracle) (cast : CppCast) (src dst : CppType) : Bool :=
  synthesisOk oracle (.Function (castMethod cast src dst)
    Option.none (Option.some cast))

/-- Whether the Cast Generator succeeds on a base relationship. -/
def genCastsOk (oracle : FfiTypeOracle) (base : CppBaseSpecifier) : Bool :=
  castOkOne oracle (.Static true base.base_index)
    (.PointerLike false .Pointer (.Class base.base_class_type))
    (.PointerLike false .Pointer (.Class base.derived_class_type)) &&
  castOkOne oracle (.Static false base.base_index)
    (.PointerLike false .Pointer (.Class base.derived_class_type))
    (.PointerLike false .Pointer (.Class base.base_class_type)) &&
  castOkOne oracle .Dynamic
    (.PointerLike false .Pointer (.Class base.base_class_type))
    (.PointerLike false .Pointer (.Class base.derived_class_type))

/-- Whether the Field Accessor Generator succeeds on a field item. -/
def genFieldAccessorsOk (oracle : FfiTypeOracle) (field : CppClassField) : Bool :=
  if field.visibility = .Public then
    if field.field_type.is_class then
      synthesisOk oracle (.FieldAccessor field .ConstRefGetter) &&
      synthesisOk oracle (.FieldAccessor field .MutRefGetter) &&
      synthesisOk oracle (.FieldAccessor field .Setter)
    else
      synthesisOk oracle (.FieldAccessor field .CopyGetter) &&
      synthesisOk oracle (.FieldAccessor field .Setter)
  else true

/-- Whether the per-item dispatch succeeds. -/
def genItemsOk (oracle : FfiTypeOracle) (d : CppItemData) : Bool :=
  match d with
  | .Type _ => true
  | .EnumValue _ => true
  | .Namespace _ => true
  | .Function method => genMethodsOk oracle method
  | .ClassField field => genFieldAccessorsOk oracle field
  | .ClassBase base => genCastsOk oracle base

theorem finishFfiFunction_kind (kind : CppFfiFunctionKind) (movable_types : List CppPath)
    (path : CppPath) (args : List CppFfiFunctionArgument) (rrt : CppType)
    (rrt_ffi : CppFfiType) :
    (finishFfiFunction kind movable_types path args rrt rrt_ffi).kind = kind := by
  unfold finishFfiFunction
  repeat' split
  all_goals rfl

theorem to_ffi_method_fst (oracle : FfiTypeOracle) (kind : CppFfiFunctionKind)
    (movable_types : List CppPath) (np : FfiNameProvider) :
    (to_ffi_method oracle kind movable_types np).1 =
      to_ffi_method_core oracle kind movable_types
        (np.create_path (kindAsciiCaption kind)).1 := rfl

theorem to_ffi_method_ok_elim {oracle : FfiTypeOracle} {kind : CppFfiFunctionKind}
    {movable_types : List CppPath} {np : FfiNameProvider} {r : CppFfiFunction}
    (h : (to_ffi_method oracle kind movable_types np).1 = .ok r) :
    ∃ othis this_args nargs conv rrt_ffi,
      thisArgType kind = .ok othis ∧
      buildThisArgs oracle othis = .ok this_args ∧
      normalArgs kind = .ok nargs ∧
      convertArguments oracle nargs 0 = .ok conv ∧
      oracle (realReturnType kind) .ReturnType = .ok rrt_ffi ∧
      r = finishFfiFunction kind movable_types
        (np.create_path (kindAsciiCaption kind)).1 (this_args ++ conv)
        (realReturnType kind) rrt_ffi := by
  rw [to_ffi_method_fst] at h
  unfold to_ffi_method_core at h
  cases h1 : thisArgType kind with
  | error e => simp [h1] at h
  | ok othis =>
  simp only [h1] at h
  cases h2 : buildThisArgs oracle othis with
  | error e => simp [h2] at h
  | ok this_args =>
  simp only [h2] at h
  cases h3 : normalArgs kind with
  | error e => simp [h3] at h
  | ok nargs =>
  simp only [h3] at h
  cases h4 : convertArguments oracle nargs 0 with
  | error e => simp [h4] at h
  | ok conv =>
  simp only [h4] at h
  cases h5 : oracle (realReturnType kind) .ReturnType with
  | error e => simp [h5] at h
  | ok rrt_ffi =>
  simp only [h5, Except.ok.injEq] at h
  exact ⟨othis, this_args, nargs, conv, rrt_ffi, rfl, h2, rfl, h4, rfl, h.symm⟩

theorem convertArguments_length {oracle : FfiTypeOracle} :
    ∀ {args : List CppFunctionArgument} {i : Nat} {l : List CppFfiFunctionArgument},
    convertArguments oracle args i = .ok l → l.length = args.length := by
  intro args
  induction args with
  | nil => intro i l h; simp only [convertArguments, Except.ok.injEq] at h; simp [← h]
  | cons a rest ih =>
    intro i l h
    unfold convertArguments at h
    cases h1 : oracle a.argument_type .NotReturnType with
    | error e => rw [h1] at h; exact absurd h (by simp)
    | ok c =>
    rw [h1] at h
    cases h2 : convertArguments oracle rest (i + 1) with
    | error e => rw [h2] at h; exact absurd h (by simp)
    | ok restc =>
    rw [h2] at h
    simp only [Except.ok.injEq] at h
    subst h
    simp [ih h2]

theorem convertArguments_meanings {oracle : FfiTypeOracle} :
    ∀ {args : List CppFunctionArgument} {i : Nat} {l : List CppFfiFunctionArgument},
    convertArguments oracle args i = .ok l →
    l.map (fun a => a.meaning) =
      (List.range' i args.length).map CppFfiArgumentMeaning.Argument := by
  intro args
  induction args with
  | nil => intro i l h; simp only [convertArguments, Except.ok.injEq] at h; simp [← h]
  | cons a rest ih =>
    intro i l h
    unfold convertArguments at h
    cases h1 : oracle a.argument_type .NotReturnType with
    | error e => rw [h1] at h; exact absurd h (by simp)
    | ok c =>
    rw [h1] at h
    cases h2 : convertArguments oracle rest (i + 1) with
    | error e => rw [h2] at h; exact absurd h (by simp)
    | ok restc =>
    rw [h2] at h
    simp only [Except.ok.injEq] at h
    subst h
    simp [List.range'_succ, ih h2]

theorem convertArguments_mem_is_argument {oracle : FfiTypeOracle}
    {args : List CppFunctionArgument} {i : Nat} {l : List CppFfiFunctionArgument}
    (h : convertArguments oracle args i = .ok l) :
    ∀ a ∈ l, a.meaning.is_argument = true := by
  intro a ha
  have hm := convertArguments_meanings h
  have : a.meaning ∈ l.map (fun a => a.meaning) := List.mem_map_of_mem _ ha
  rw [hm] at this
  rcases List.mem_map.1 this with ⟨j, _, hj⟩
  rw [← hj]
  rfl

theorem convertArguments_countP {oracle : FfiTypeOracle}
    {args : List CppFunctionArgument} {i : Nat} {l : List CppFfiFunctionArgument}
    (h : convertArguments oracle args i = .ok l) :
    l.countP (fun a => a.meaning.is_argument) = args.length := by
  have := List.countP_eq_length.2 (convertArguments_mem_is_argument h)
  rw [this, convertArguments_length h]

theorem buildThisArgs_none {oracle : FfiTypeOracle} :
    buildThisArgs oracle Option.none = .ok [] := rfl

theorem buildThisArgs_ok_countP {oracle : FfiTypeOracle} {othis : Option CppType}
    {l : List CppFfiFunctionArgument} (h : buildThisArgs oracle othis = .ok l) :
    l.countP (fun a => a.meaning.is_argument) = 0 := by
  cases othis with
  | none => simp only [buildThisArgs, Except.ok.injEq] at h; simp [← h]
  | some t =>
    simp only [buildThisArgs] at h
    cases h1 : oracle t .NotReturnType with
    | error e => simp [h1] at h
    | ok c =>
      simp only [h1, Except.ok.injEq] at h
      simp [← h, CppFfiArgumentMeaning.is_argument, thisPtrArg]

theorem finishFfiFunction_countP (kind : CppFfiFunctionKind)
    (movable_types : List CppPath) (path : CppPath)
    (args : List CppFfiFunctionArgument) (rrt : CppType) (rrt_ffi : CppFfiType) :
    (finishFfiFunction kind movable_types path args rrt rrt_ffi).arguments.countP
        (fun a => a.meaning.is_argument) =
      args.countP (fun a => a.meaning.is_argument) := by
  unfold finishFfiFunction
  repeat' split
  all_goals simp [CppFfiArgumentMeaning.is_argument, outputArg]

theorem to_ffi_method_ok_function {oracle : FfiTypeOracle} {f : CppFunction}
    {omitted : Option Nat} {cast : Option CppCast} {movable_types : List CppPath}
    {np : FfiNameProvider} {r : CppFfiFunction}
    (h : (to_ffi_method oracle (.Function f omitted cast) movable_types np).1 = .ok r) :
    r.kind = .Function f omitted cast ∧
    positionalArgCount r = f.arguments.length ∧
    f.allows_variadic_arguments = false := by
  rcases to_ffi_method_ok_elim h with
    ⟨othis, this_args, nargs, conv, rrt_ffi, _, h2, h3, h4, _, h6⟩
  have hvar : f.allows_variadic_arguments = false := by
    by_contra hv
    simp only [Bool.not_eq_false] at hv
    simp [normalArgs, hv] at h3
  have hnargs : nargs = f.arguments := by
    simp [normalArgs, hvar] at h3
    exact h3.symm
  subst h6
  refine ⟨finishFfiFunction_kind _ _ _ _ _ _, ?_, hvar⟩
  unfold positionalArgCount
  rw [finishFfiFunction_countP, List.countP_append, buildThisArgs_ok_countP h2,
    convertArguments_countP h4, hnargs]
  simp

theorem buildThisArgs_ok_mem {oracle : FfiTypeOracle} {othis : Option CppType}
    {l : List CppFfiFunctionArgument} (h : buildThisArgs oracle othis = .ok l) :
    ∀ a ∈ l, a.meaning = .This := by
  cases othis with
  | none => simp only [buildThisArgs, Except.ok.injEq] at h; simp [← h]
  | some t =>
    simp only [buildThisArgs] at h
    cases h1 : oracle t .NotReturnType with
    | error e => simp [h1] at h
    | ok c =>
      simp only [h1, Except.ok.injEq] at h
      simp [← h, thisPtrArg]

theorem finishFfiFunction_arguments (kind : CppFfiFunctionKind)
    (movable_types : List CppPath) (path : CppPath)
    (args : List CppFfiFunctionArgument) (rrt : CppType) (rrt_ffi : CppFfiType) :
    (finishFfiFunction kind movable_types path args rrt rrt_ffi).arguments = args ∨
    (finishFfiFunction kind movable_types path args rrt rrt_ffi).arguments =
      args ++ [outputArg rrt_ffi] := by
  unfold finishFfiFunction outputArg
  repeat' split
  all_goals simp

theorem finishFfiFunction_class_movable {p : CppPath} {movable_types : List CppPath}
    (kind : CppFfiFunctionKind) (path : CppPath) (args : List CppFfiFunctionArgument)
    (rrt_ffi : CppFfiType) (hq : is_qflags p = false)
    (hmv : movable_types.any (fun t => cppPathBeq t p) = true) :
    finishFfiFunction kind movable_types path args (CppType.Class p) rrt_ffi =
      { arguments := args ++ [outputArg rrt_ffi], return_type := CppFfiType.void,
        path := path, allocation_place := .Stack, kind := kind } := by
  simp [finishFfiFunction, hq, hmv, outputArg]

theorem finishFfiFunction_class_heap {p : CppPath} {movable_types : List CppPath}
    (kind : CppFfiFunctionKind) (path : CppPath) (args : List CppFfiFunctionArgument)
    (rrt_ffi : CppFfiType) (hq : is_qflags p = false)
    (hmv : movable_types.any (fun t => cppPathBeq t p) = false) :
    finishFfiFunction kind movable_types path args (CppType.Class p) rrt_ffi =
      { arguments := args, return_type := rrt_ffi,
        path := path, allocation_place := .Heap, kind := kind } := by
  simp [finishFfiFunction, hq, hmv]

theorem finishFfiFunction_class_qflags {p : CppPath} {movable_types : List CppPath}
    (kind : CppFfiFunctionKind) (path : CppPath) (args : List CppFfiFunctionArgument)
    (rrt_ffi : CppFfiType) (hq : is_qflags p = true) :
    finishFfiFunction kind movable_types path args (CppType.Class p) rrt_ffi =
      { arguments := args, return_type := rrt_ffi, path := path,
        allocation_place := dtorAllocationPlace kind movable_types, kind := kind } := by
  simp [finishFfiFunction, hq]

theorem dtorAllocationPlace_not_destructor {kind : CppFfiFunctionKind}
    (movable_types : List CppPath) (h : kindIsDestructor kind = false) :
    dtorAllocationPlace kind movable_types = .NotApplicable := by
  cases kind with
  | Function f omitted cast =>
      simp only [kindIsDestructor] at h
      simp [dtorAllocationPlace, h]
  | FieldAccessor field accessor_type => rfl

/-- C1 (amended with the QFlags exclusion forced by the counterexample):
for every callable whose real return type is a class type M that is not
the specially boxed QFlags class, if M is in the Movable-Type Set the
produced Boundary Function has void return type, its last argument is
the synthesized return slot carrying the converted boundary type of M,
and the allocation place is stack; if M is not in the Movable-Type Set
the Boundary Function returns the converted boundary type of M directly
and the allocation place is heap. -/
theorem c1_movable_return_convention (oracle : FfiTypeOracle)
    (kind : CppFfiFunctionKind) (movable_types : List CppPath)
    (np : FfiNameProvider) (r : CppFfiFunction) (M : CppPath)
    (hret : realReturnType kind = CppType.Class M)
    (hq : is_qflags M = false)
    (hok : (to_ffi_method oracle kind movable_types np).1 = .ok r) :
    if movable_types.any (fun t => cppPathBeq t M) then
      r.return_type = CppFfiType.void ∧
      r.allocation_place = .Stack ∧
      ∃ c init, oracle (CppType.Class M) .ReturnType = .ok c ∧
        r.arguments = init ++ [outputArg c]
    else
      r.allocation_place = .Heap ∧
      ∃ c, oracle (CppType.Class M) .ReturnType = .ok c ∧ r.return_type = c := by
  rcases to_ffi_method_ok_elim hok with
    ⟨othis, this_args, nargs, conv, rrt_ffi, h1, h2, h3, h4, h5, h6⟩
  rw [hret] at h5 h6
  by_cases hmv : movable_types.any (fun t => cppPathBeq t M) = true
  · simp only [hmv, if_true]
    rw [finishFfiFunction_class_movable _ _ _ _ hq hmv] at h6
    subst h6
    exact ⟨rfl, rfl, rrt_ffi, this_args ++ conv, h5, rfl⟩
  · simp only [Bool.not_eq_true] at hmv
    simp only [hmv, Bool.false_eq_true, if_false]
    rw [finishFfiFunction_class_heap _ _ _ _ hq hmv] at h6
    subst h6
    exact ⟨rfl, rrt_ffi, h5, rfl⟩

/-- Witness for C1: a free function returning the movable class Widget
produces a void-returning Boundary Function with a trailing return slot
and stack allocation. -/
theorem c1_movable_return_convention_witness :
    w1Res.return_type = CppFfiType.void ∧
    w1Res.allocation_place = .Stack ∧
    ∃ c init, idOracle (CppType.Class (exPath1 "Widget")) .ReturnType = .ok c ∧
      w1Res.arguments = init ++ [outputArg c] :=
  c1_movable_return_convention idOracle
    (.Function w1Fun Option.none Option.none) [exPath1 "Widget"] npExample
    w1Res (exPath1 "Widget") rfl rfl rfl

/-- Counterexample to C1 as stated: a free function returning the
QFlags class, with that class path in the Movable-Type Set, yields a
Boundary Function with allocation place NotApplicable rather than
stack and with no synthesized return slot argument at all. -/
theorem c1_qflags_cex :
    c1xRes.allocation_place = .NotApplicable ∧
    c1xRes.allocation_place ≠ .Stack ∧
    c1xRes.arguments = [] :=
  ⟨rfl, by decide, rfl⟩

theorem take_one_add_append {A : Type} (x : A) (l1 l2 : List A) :
    (x :: (l1 ++ l2)).take (1 + l1.length) = x :: l1 := by
  rw [Nat.add_comm, List.take_succ_cons, List.take_left]

/-- C5: a non-static, non-constructor member function of class X with N
formal arguments yields a Boundary Function whose first argument is the
this-pointer of converted type pointer-to-X with the constness of the
method, followed by N positional arguments carrying the original
formal-argument indices in order, and with exactly N positional
arguments in total. -/
theorem c5_this_pointer_shape (oracle : FfiTypeOracle) (f : CppFunction)
    (omitted : Option Nat) (cast : Option CppCast)
    (movable_types : List CppPath) (np : FfiNameProvider) (r : CppFfiFunction)
    (info : CppFunctionMemberData)
    (hm : f.member = Option.some info)
    (hs : info.is_static = false)
    (hk : info.kind ≠ .Constructor)
    (hok : (to_ffi_method oracle (.Function f omitted cast) movable_types np).1 =
      .ok r) :
    (∃ c, oracle (CppType.new_pointer info.is_const (CppType.Class f.path.parentD))
        .NotReturnType = .ok c ∧
      r.arguments.head? = Option.some (thisPtrArg c)) ∧
    (r.arguments.map (fun a => a.meaning)).take (1 + f.arguments.length) =
      .This :: (List.range f.arguments.length).map CppFfiArgumentMeaning.Argument ∧
    positionalArgCount r = f.arguments.length := by
  rcases to_ffi_method_ok_elim hok with
    ⟨othis, this_args, nargs, conv, rrt_ffi, h1, h2, h3, h4, h5, h6⟩
  have hthis : thisArgType (.Function f omitted cast) =
      .ok (Option.some (CppType.new_pointer info.is_const
        (CppType.Class f.path.parentD))) := by
    simp [thisArgType, hm, hs, hk, CppFunction.class_type_total]
  rw [hthis] at h1
  simp only [Except.ok.injEq] at h1
  subst h1
  simp only [buildThisArgs] at h2
  cases hc : oracle (CppType.new_pointer info.is_const
      (CppType.Class f.path.parentD)) .NotReturnType with
  | error e => simp [hc] at h2
  | ok c =>
  simp only [hc, Except.ok.injEq] at h2
  subst h2
  have hvar : f.allows_variadic_arguments = false := by
    by_contra hv
    simp only [Bool.not_eq_false] at hv
    simp [normalArgs, hv] at h3
  have hnargs : nargs = f.arguments := by
    simp [normalArgs, hvar] at h3
    exact h3.symm
  subst hnargs
  have hconvlen := convertArguments_length h4
  have hconvm := convertArguments_meanings h4
  cases finishFfiFunction_arguments (.Function f omitted cast) movable_types
      (np.create_path (kindAsciiCaption (.Function f omitted cast))).1
      ([thisPtrArg c] ++ conv)
      (realReturnType (.Function f omitted cast)) rrt_ffi with
  | inl hargs =>
      refine ⟨⟨c, rfl, ?_⟩, ?_, (to_ffi_method_ok_function hok).2.1⟩
      · rw [h6, hargs]; rfl
      · rw [h6, hargs]
        simp only [List.map_append, List.singleton_append, List.map_cons,
          thisPtrArg]
        rw [List.take_of_length_le (by simp [hconvlen]; omega)]
        simp only [List.cons.injEq, true_and]
        rw [hconvm, ← List.range_eq_range']
  | inr hargs =>
      refine ⟨⟨c, rfl, ?_⟩, ?_, (to_ffi_method_ok_function hok).2.1⟩
      · rw [h6, hargs]; rfl
      · rw [h6, hargs]
        simp only [List.map_append, List.singleton_append, List.map_cons,
          thisPtrArg, List.map_nil]
        rw [show (1 + f.arguments.length) =
          1 + (conv.map (fun a => a.meaning)).length from by simp [hconvlen]]
        rw [List.cons_append, take_one_add_append]
        simp only [List.cons.injEq, true_and]
        rw [hconvm, ← List.range_eq_range']

/-- Witness for C5: a const member function of Widget with one formal
argument. -/
theorem c5_this_pointer_shape_witness :
    (∃ c, idOracle (CppType.new_pointer true (CppType.Class (exPath2 "Widget"
        "resize").parentD)) .NotReturnType = .ok c ∧
      w5Res.arguments.head? = Option.some (thisPtrArg c)) ∧
    (w5Res.arguments.map (fun a => a.meaning)).take (1 + w5Fun.arguments.length) =
      .This :: (List.range w5Fun.arguments.length).map CppFfiArgumentMeaning.Argument ∧
    positionalArgCount w5Res = w5Fun.arguments.length := by
  have h := c5_this_pointer_shape idOracle w5Fun Option.none Option.none []
    npExample w5Res (exMember .Regular true) rfl rfl (by decide) rfl
  exact h

theorem to_ffi_method_ok_kind {oracle : FfiTypeOracle} {kind : CppFfiFunctionKind}
    {movable_types : List CppPath} {np : FfiNameProvider} {r : CppFfiFunction}
    (h : (to_ffi_method oracle kind movable_types np).1 = .ok r) :
    r.kind = kind := by
  rcases to_ffi_method_ok_elim h with ⟨_, _, _, _, _, _, _, _, _, _, h6⟩
  rw [h6]
  exact finishFfiFunction_kind _ _ _ _ _ _

theorem finishFfiFunction_void (kind : CppFfiFunctionKind)
    (movable_types : List CppPath) (path : CppPath)
    (args : List CppFfiFunctionArgument) (rrt_ffi : CppFfiType) :
    finishFfiFunction kind movable_types path args CppType.Void rrt_ffi =
      { arguments := args, return_type := rrt_ffi, path := path,
        allocation_place := dtorAllocationPlace kind movable_types,
        kind := kind } := rfl

/-- C9: for every callable whose real return type is the QFlags class,
the Boundary Function returns the converted boundary type directly with
allocation place NotApplicable, even when that class path is in the
Movable-Type Set: the stack/heap class-return convention is bypassed.
Destructors are excluded by hypothesis: a destructor declares a void
return type, so its real return type is never a class. -/
theorem c9_qflags_return_bypass (oracle : FfiTypeOracle) (kind : CppFfiFunctionKind)
    (movable_types : List CppPath) (np : FfiNameProvider) (r : CppFfiFunction)
    (p : CppPath)
    (hret : realReturnType kind = CppType.Class p)
    (hq : is_qflags p = true)
    (hd : kindIsDestructor kind = false)
    (hok : (to_ffi_method oracle kind movable_types np).1 = .ok r) :
    (∃ c, oracle (CppType.Class p) .ReturnType = .ok c ∧ r.return_type = c) ∧
    r.allocation_place = .NotApplicable ∧
    ∀ a ∈ r.arguments, a.meaning ≠ .ReturnValue := by
  rcases to_ffi_method_ok_elim hok with
    ⟨othis, this_args, nargs, conv, rrt_ffi, h1, h2, h3, h4, h5, h6⟩
  rw [hret] at h5 h6
  rw [finishFfiFunction_class_qflags _ _ _ _ hq,
    dtorAllocationPlace_not_destructor movable_types hd] at h6
  subst h6
  refine ⟨⟨rrt_ffi, h5, rfl⟩, rfl, ?_⟩
  intro a ha
  rcases List.mem_append.1 ha with hmem | hmem
  · rw [buildThisArgs_ok_mem h2 a hmem]
    decide
  · have hm := convertArguments_mem_is_argument h4 a hmem
    intro heq
    rw [heq] at hm
    simp [CppFfiArgumentMeaning.is_argument] at hm

/-- Witness for C9: a free function returning QFlags, with the QFlags
path in the Movable-Type Set, still returns directly. -/
theorem c9_qflags_return_bypass_witness :
    (∃ c, idOracle (CppType.Class (exPath1 "QFlags")) .ReturnType = .ok c ∧
      w9Res.return_type = c) ∧
    w9Res.allocation_place = .NotApplicable ∧
    ∀ a ∈ w9Res.arguments, a.meaning ≠ .ReturnValue :=
  c9_qflags_return_bypass idOracle (.Function w9Fun Option.none Option.none)
    [exPath1 "QFlags"] npExample w9Res (exPath1 "QFlags") rfl rfl rfl rfl

/-- C2: every Boundary Function generated for a constructor of a class
C and every Boundary Function generated for a destructor of C carry the
same allocation place: stack if C is in the Movable-Type Set, heap
otherwise. The synthesis calls are quantified over the omitted-argument
count and the cast slot, so the default-argument expansion overloads
(synthesized from the truncated callable with omitted = some k, which
keeps the member record and path of the original) are covered. The
Driver never feeds QFlags members to the synthesizer, so C is not the
QFlags class; a destructor declares a void return type. -/
theorem c2_ctor_dtor_allocation_place (oracle : FfiTypeOracle)
    (movable_types : List CppPath) (C : CppPath)
    (fc fd : CppFunction) (mc md : CppFunctionMemberData)
    (npc npd : FfiNameProvider) (rc rd : CppFfiFunction)
    (omc omd : Option Nat) (cc cd : Option CppCast)
    (hmc : fc.member = Option.some mc) (hkc : mc.kind = .Constructor)
    (hmd : fd.member = Option.some md) (hkd : md.kind = .Destructor)
    (hpc : fc.path.parentD = C) (hpd : fd.path.parentD = C)
    (hrd : fd.return_type = CppType.Void)
    (hq : is_qflags C = false)
    (hokc : (to_ffi_method oracle (.Function fc omc cc)
      movable_types npc).1 = .ok rc)
    (hokd : (to_ffi_method oracle (.Function fd omd cd)
      movable_types npd).1 = .ok rd) :
    rc.allocation_place = rd.allocation_place ∧
    rc.allocation_place =
      (if movable_types.any (fun t => cppPathBeq t C) then .Stack else .Heap) := by
  have hrc : rc.allocation_place =
      (if movable_types.any (fun t => cppPathBeq t C) then
        ReturnValueAllocationPlace.Stack else .Heap) := by
    rcases to_ffi_method_ok_elim hokc with
      ⟨othis, ta, na, cv, rf, h1, h2, h3, h4, h5, h6⟩
    have hret : realReturnType (.Function fc omc cc) =
        CppType.Class C := by
      simp [realReturnType, hmc, hkc, CppFunctionKind.is_constructor,
        CppFunction.class_type_total, hpc]
    rw [hret] at h6
    by_cases hmv : movable_types.any (fun t => cppPathBeq t C) = true
    · rw [finishFfiFunction_class_movable _ _ _ _ hq hmv] at h6
      subst h6
      simp [hmv]
    · simp only [Bool.not_eq_true] at hmv
      rw [finishFfiFunction_class_heap _ _ _ _ hq hmv] at h6
      subst h6
      simp [hmv]
  have hrd2 : rd.allocation_place =
      (if movable_types.any (fun t => cppPathBeq t C) then
        ReturnValueAllocationPlace.Stack else .Heap) := by
    rcases to_ffi_method_ok_elim hokd with
      ⟨othis, ta, na, cv, rf, h1, h2, h3, h4, h5, h6⟩
    have hret : realReturnType (.Function fd omd cd) =
        CppType.Void := by
      simp [realReturnType, hmd, hkd, CppFunctionKind.is_constructor, hrd]
    rw [hret, finishFfiFunction_void] at h6
    subst h6
    simp [dtorAllocationPlace, CppFunction.is_destructor, hmd, hkd,
      CppFunction.class_type_total, hpd]
  rw [hrc, hrd2]
  exact ⟨rfl, rfl⟩

/-- Witness for C2: the constructor and destructor of the movable class
Widget both carry the stack allocation place. -/
theorem c2_ctor_dtor_allocation_place_witness :
    w2Rc.allocation_place = w2Rd.allocation_place ∧
    w2Rc.allocation_place =
      (if [exPath1 "Widget"].any (fun t => cppPathBeq t (exPath1 "Widget")) then
        ReturnValueAllocationPlace.Stack else .Heap) :=
  c2_ctor_dtor_allocation_place idOracle [exPath1 "Widget"] (exPath1 "Widget")
    w2Ctor w2Dtor (exMember .Constructor false) (exMember .Destructor false)
    npExample npExample w2Rc w2Rd Option.none Option.none Option.none
    Option.none rfl rfl rfl rfl rfl rfl rfl rfl rfl rfl

/-- C6: a public field of non-class type yields exactly two Boundary
Functions, a copy getter and a setter; a public field of class type
yields exactly three, a const-ref getter, a mutable-ref getter and a
setter; a private or protected field yields none. -/
theorem c6_field_accessor_counts (oracle : FfiTypeOracle) (field : CppClassField)
    (movable_types : List CppPath) (np : FfiNameProvider)
    (items : List CppFfiItem) (np2 : FfiNameProvider)
    (hok : generate_field_accessors oracle field movable_types np = (.ok items, np2)) :
    items.map accessorTypeOf =
      (if field.visibility = .Public then
        (if field.field_type.is_class then
          [Option.some CppFieldAccessorType.ConstRefGetter,
           Option.some CppFieldAccessorType.MutRefGetter,
           Option.some CppFieldAccessorType.Setter]
         else
          [Option.some CppFieldAccessorType.CopyGetter,
           Option.some CppFieldAccessorType.Setter])
       else []) ∧
    items.length =
      (if field.visibility = .Public then
        (if field.field_type.is_class then 3 else 2) else 0) := by
  unfold generate_field_accessors at hok
  by_cases hv : field.visibility = .Public
  · simp only [hv, if_true] at hok ⊢
    by_cases hcl : field.field_type.is_class = true
    · simp only [hcl, if_true] at hok ⊢
      cases hg1 : to_ffi_method oracle (.FieldAccessor field .ConstRefGetter)
          movable_types np with
      | mk res1 np1 =>
      cases res1 with
      | error e => simp [hg1] at hok
      | ok m1 =>
      simp only [hg1] at hok
      cases hg2 : to_ffi_method oracle (.FieldAccessor field .MutRefGetter)
          movable_types np1 with
      | mk res2 np2x =>
      cases res2 with
      | error e => simp [hg2] at hok
      | ok m2 =>
      simp only [hg2] at hok
      cases hg3 : to_ffi_method oracle (.FieldAccessor field .Setter)
          movable_types np2x with
      | mk res3 np3 =>
      cases res3 with
      | error e => simp [hg3] at hok
      | ok m3 =>
      simp only [hg3, Prod.mk.injEq, Except.ok.injEq] at hok
      rcases hok with ⟨hitems, _⟩
      have hk1 := to_ffi_method_ok_kind (show (to_ffi_method oracle
        (.FieldAccessor field .ConstRefGetter) movable_types np).1 = .ok m1 by
          rw [hg1])
      have hk2 := to_ffi_method_ok_kind (show (to_ffi_method oracle
        (.FieldAccessor field .MutRefGetter) movable_types np1).1 = .ok m2 by
          rw [hg2])
      have hk3 := to_ffi_method_ok_kind (show (to_ffi_method oracle
        (.FieldAccessor field .Setter) movable_types np2x).1 = .ok m3 by
          rw [hg3])
      subst hitems
      simp [accessorTypeOf, CppFfiItem.ffi_function, CppFfiItem.from_function,
        hk1, hk2, hk3]
    · simp only [hcl, Bool.false_eq_true, if_false] at hok ⊢
      cases hg1 : to_ffi_method oracle (.FieldAccessor field .CopyGetter)
          movable_types np with
      | mk res1 np1 =>
      cases res1 with
      | error e => simp [hg1] at hok
      | ok m1 =>
      simp only [hg1] at hok
      cases hg2 : to_ffi_method oracle (.FieldAccessor field .Setter)
          movable_types np1 with
      | mk res2 np2x =>
      cases res2 with
      | error e => simp [hg2] at hok
      | ok m2 =>
      simp only [hg2, Prod.mk.injEq, Except.ok.injEq] at hok
      rcases hok with ⟨hitems, _⟩
      have hk1 := to_ffi_method_ok_kind (show (to_ffi_method oracle
        (.FieldAccessor field .CopyGetter) movable_types np).1 = .ok m1 by
          rw [hg1])
      have hk2 := to_ffi_method_ok_kind (show (to_ffi_method oracle
        (.FieldAccessor field .Setter) movable_types np1).1 = .ok m2 by
          rw [hg2])
      subst hitems
      simp [accessorTypeOf, CppFfiItem.ffi_function, CppFfiItem.from_function,
        hk1, hk2]
  · simp only [hv, if_false] at hok ⊢
    simp only [Prod.mk.injEq, Except.ok.injEq] at hok
    rcases hok with ⟨hitems, _⟩
    subst hitems
    simp

/-- Witness for C6: a public int field yields a copy getter and a
setter. -/
theorem c6_field_accessor_counts_witness :
    w6Items.map accessorTypeOf =
      (if w6Field.visibility = .Public then
        (if w6Field.field_type.is_class then
          [Option.some CppFieldAccessorType.ConstRefGetter,
           Option.some CppFieldAccessorType.MutRefGetter,
           Option.some CppFieldAccessorType.Setter]
         else
          [Option.some CppFieldAccessorType.CopyGetter,
           Option.some CppFieldAccessorType.Setter])
       else []) ∧
    w6Items.length =
      (if w6Field.visibility = .Public then
        (if w6Field.field_type.is_class then 3 else 2) else 0) :=
  c6_field_accessor_counts idOracle w6Field [] npExample w6Items
    (generate_field_accessors idOracle w6Field [] npExample).2 rfl

theorem finishFfiFunction_pointer (kind : CppFfiFunctionKind)
    (movable_types : List CppPath) (path : CppPath)
    (args : List CppFfiFunctionArgument) (is_const : Bool)
    (pk : CppPointerLikeTypeKind) (t : CppType) (rrt_ffi : CppFfiType) :
    finishFfiFunction kind movable_types path args
        (CppType.PointerLike is_const pk t) rrt_ffi =
      { arguments := args, return_type := rrt_ffi, path := path,
        allocation_place := dtorAllocationPlace kind movable_types,
        kind := kind } := rfl

theorem create_cast_method_ok {oracle : FfiTypeOracle} {cast : CppCast}
    {sp dq : CppPath} {np np' : FfiNameProvider} {item : CppFfiItem}
    (hok : create_cast_method oracle cast
      (CppType.PointerLike false .Pointer (.Class sp))
      (CppType.PointerLike false .Pointer (.Class dq)) np = (.ok item, np')) :
    castOf item = Option.some cast ∧
    castSourceType item =
      Option.some (CppType.PointerLike false .Pointer (.Class sp)) ∧
    castDestType item =
      Option.some (CppType.PointerLike false .Pointer (.Class dq)) ∧
    item.ffi_function.arguments.map (fun a => a.meaning) = [.Argument 0] := by
  unfold create_cast_method at hok
  simp only [Prod.mk.injEq] at hok
  rcases hok with ⟨hmap, _⟩
  cases hr : (to_ffi_method oracle
      (.Function (castMethod cast
        (CppType.PointerLike false .Pointer (.Class sp))
        (CppType.PointerLike false .Pointer (.Class dq)))
        Option.none (Option.some cast)) [] np).1 with
  | error e => rw [hr] at hmap; simp [Except.map] at hmap
  | ok rf =>
  rw [hr] at hmap
  simp only [Except.map, Except.ok.injEq] at hmap
  subst hmap
  have hkind := to_ffi_method_ok_kind hr
  rcases to_ffi_method_ok_elim hr with
    ⟨othis, this_args, nargs, conv, rrt_ffi, h1, h2, h3, h4, h5, h6⟩
  have hothis : othis = Option.none := by
    simp [thisArgType, castMethod] at h1
    exact h1.symm
  subst hothis
  have hthis : this_args = [] := by
    simp [buildThisArgs] at h2
    exact h2
  subst hthis
  have hnargs : nargs = (castMethod cast
      (CppType.PointerLike false .Pointer (.Class sp))
      (CppType.PointerLike false .Pointer (.Class dq))).arguments := by
    simp [normalArgs, castMethod] at h3
    rw [← h3]
    rfl
  subst hnargs
  have hm := convertArguments_meanings h4
  refine ⟨?_, ?_, ?_, ?_⟩
  · simp [castOf, CppFfiItem.ffi_function, CppFfiItem.from_function, hkind]
  · simp [castSourceType, CppFfiItem.ffi_function, CppFfiItem.from_function,
      hkind, castMethod]
  · simp [castDestType, CppFfiItem.ffi_function, CppFfiItem.from_function,
      hkind, castMethod]
  · rw [h6]
    simp only [CppFfiItem.ffi_function, CppFfiItem.from_function,
      realReturnType, castMethod, finishFfiFunction_pointer, List.nil_append]
    rw [hm]
    simp [List.range', castMethod]

/-- C4: a Base Relationship with derived class D, base class B and
ordinal index i yields exactly three Boundary Functions, each a cast
with a single pointer argument tagged as positional argument zero and a
pointer return type: an unsafe static cast from B pointer to D pointer
carrying base index i, a safe static cast from D pointer to B pointer
carrying base index i, and a dynamic cast from B pointer to D pointer. -/
theorem c4_cast_generation (oracle : FfiTypeOracle) (base : CppBaseSpecifier)
    (np : FfiNameProvider) (items : List CppFfiItem) (np' : FfiNameProvider)
    (hok : generate_casts oracle base np = (.ok items, np')) :
    ∃ u s d, items = [u, s, d] ∧
      castOf u = Option.some (.Static true base.base_index) ∧
      castSourceType u = Option.some
        (CppType.PointerLike false .Pointer (.Class base.base_class_type)) ∧
      castDestType u = Option.some
        (CppType.PointerLike false .Pointer (.Class base.derived_class_type)) ∧
      castOf s = Option.some (.Static false base.base_index) ∧
      castSourceType s = Option.some
        (CppType.PointerLike false .Pointer (.Class base.derived_class_type)) ∧
      castDestType s = Option.some
        (CppType.PointerLike false .Pointer (.Class base.base_class_type)) ∧
      castOf d = Option.some CppCast.Dynamic ∧
      castSourceType d = Option.some
        (CppType.PointerLike false .Pointer (.Class base.base_class_type)) ∧
      castDestType d = Option.some
        (CppType.PointerLike false .Pointer (.Class base.derived_class_type)) ∧
      ∀ x ∈ items, x.ffi_function.arguments.map (fun a => a.meaning) =
        [CppFfiArgumentMeaning.Argument 0] := by
  unfold generate_casts generate_casts_one at hok
  cases hg1 : create_cast_method oracle (.Static true base.base_index)
      (CppType.PointerLike false .Pointer (.Class base.base_class_type))
      (CppType.PointerLike false .Pointer (.Class base.derived_class_type)) np with
  | mk res1 np1 =>
  cases res1 with
  | error e => simp [hg1] at hok
  | ok m1 =>
  simp only [hg1] at hok
  cases hg2 : create_cast_method oracle (.Static false base.base_index)
      (CppType.PointerLike false .Pointer (.Class base.derived_class_type))
      (CppType.PointerLike false .Pointer (.Class base.base_class_type)) np1 with
  | mk res2 np2 =>
  cases res2 with
  | error e => simp [hg2] at hok
  | ok m2 =>
  simp only [hg2] at hok
  cases hg3 : create_cast_method oracle .Dynamic
      (CppType.PointerLike false .Pointer (.Class base.base_class_type))
      (CppType.PointerLike false .Pointer (.Class base.derived_class_type)) np2 with
  | mk res3 np3 =>
  cases res3 with
  | error e => simp [hg3] at hok
  | ok m3 =>
  simp only [hg3, Prod.mk.injEq, Except.ok.injEq] at hok
  rcases hok with ⟨hitems, _⟩
  subst hitems
  rcases create_cast_method_ok hg1 with ⟨hu1, hu2, hu3, hu4⟩
  rcases create_cast_method_ok hg2 with ⟨hs1, hs2, hs3, hs4⟩
  rcases create_cast_method_ok hg3 with ⟨hd1, hd2, hd3, hd4⟩
  refine ⟨m1, m2, m3, rfl, hu1, hu2, hu3, hs1, hs2, hs3, hd1, hd2, hd3, ?_⟩
  intro x hx
  simp only [List.mem_cons, List.not_mem_nil, or_false] at hx
  rcases hx with rfl | rfl | rfl
  · exact hu4
  · exact hs4
  · exact hd4

/-- Witness for C4: the three casts for a concrete base relationship
with index two. -/
theorem c4_cast_generation_witness :
    ∃ u s d, w4Items = [u, s, d] ∧
      castOf u = Option.some (.Static true w4Base.base_index) ∧
      castSourceType u = Option.some
        (CppType.PointerLike false .Pointer (.Class w4Base.base_class_type)) ∧
      castDestType u = Option.some
        (CppType.PointerLike false .Pointer (.Class w4Base.derived_class_type)) ∧
      castOf s = Option.some (.Static false w4Base.base_index) ∧
      castSourceType s = Option.some
        (CppType.PointerLike false .Pointer (.Class w4Base.derived_class_type)) ∧
      castDestType s = Option.some
        (CppType.PointerLike false .Pointer (.Class w4Base.base_class_type)) ∧
      castOf d = Option.some CppCast.Dynamic ∧
      castSourceType d = Option.some
        (CppType.PointerLike false .Pointer (.Class w4Base.base_class_type)) ∧
      castDestType d = Option.some
        (CppType.PointerLike false .Pointer (.Class w4Base.derived_class_type)) ∧
      ∀ x ∈ w4Items, x.ffi_function.arguments.map (fun a => a.meaning) =
        [CppFfiArgumentMeaning.Argument 0] :=
  c4_cast_generation idOracle w4Base npExample w4Items
    (generate_casts idOracle w4Base npExample).2 rfl

theorem to_ffi_method_ok_omitted {oracle : FfiTypeOracle} {f : CppFunction}
    {omitted : Option Nat} {cast : Option CppCast} {movable_types : List CppPath}
    {np : FfiNameProvider} {r : CppFfiFunction}
    (h : (to_ffi_method oracle (.Function f omitted cast) movable_types np).1 =
      .ok r) :
    omittedCountOf r = omitted.getD 0 := by
  have hk := to_ffi_method_ok_kind h
  simp [omittedCountOf, hk]

theorem countDefaults_le (l : List CppFunctionArgument) :
    countDefaults l ≤ l.length := by
  induction l with
  | nil => simp [countDefaults]
  | cons a rest ih =>
    simp only [countDefaults, List.length_cons]
    split
    · omega
    · omega

theorem pairwise_sub_lt {N k : Nat} (h : k ≤ N) :
    List.Pairwise (fun a b => b < a)
      ((List.range (k + 1)).map (fun j => N - j)) := by
  rw [List.pairwise_iff_getElem]
  intro i j hi hj hij
  simp only [List.length_map, List.length_range] at hi hj
  simp only [List.getElem_map, List.getElem_range]
  omega

theorem overloadLoop_ok {oracle : FfiTypeOracle} {movable_types : List CppPath}
    {method : CppFunction} :
    ∀ (rev : List CppFunctionArgument) (np : FfiNameProvider)
      (ms : List CppFfiItem) (np2 : FfiNameProvider),
    rev.length ≤ method.arguments.length →
    overloadLoop oracle movable_types method rev np = (.ok ms, np2) →
    ms.map (fun i => omittedCountOf i.ffi_function) =
        List.range' (method.arguments.length - rev.length + 1) (countDefaults rev) ∧
    ms.map (fun i => positionalArgCount i.ffi_function) =
        (List.range (countDefaults rev)).map (fun j => rev.length - 1 - j) ∧
    ms.length = countDefaults rev := by
  intro rev
  induction rev with
  | nil =>
    intro np ms np2 _ hok
    simp only [overloadLoop, Prod.mk.injEq, Except.ok.injEq] at hok
    rcases hok with ⟨hms, _⟩
    subst hms
    simp [countDefaults]
  | cons arg rest ih =>
    intro np ms np2 hlen hok
    unfold overloadLoop at hok
    by_cases hd : arg.has_default_value = true
    · simp only [hd, if_true] at hok
      cases hg1 : to_ffi_method oracle
          (.Function { method with arguments := rest.reverse }
            (Option.some (method.arguments.length - rest.length))
            Option.none) movable_types np with
      | mk res1 np1 =>
      cases res1 with
      | error e => simp [hg1] at hok
      | ok m =>
      simp only [hg1] at hok
      cases hg2 : overloadLoop oracle movable_types method rest np1 with
      | mk res2 np2x =>
      cases res2 with
      | error e => simp [hg2] at hok
      | ok ms' =>
      simp only [hg2, Prod.mk.injEq, Except.ok.injEq] at hok
      rcases hok with ⟨hms, _⟩
      subst hms
      have hrest : rest.length ≤ method.arguments.length := by
        simp only [List.length_cons] at hlen
        omega
      rcases ih np1 ms' np2x hrest hg2 with ⟨ihom, ihpos, ihlen⟩
      have hm1 : (to_ffi_method oracle
          (.Function { method with arguments := rest.reverse }
            (Option.some (method.arguments.length - rest.length))
            Option.none) movable_types np).1 = .ok m := by rw [hg1]
      have hom := to_ffi_method_ok_omitted hm1
      have hpos := (to_ffi_method_ok_function hm1).2.1
      have hheadom : omittedCountOf (CppFfiItem.from_function m).ffi_function =
          method.arguments.length - rest.length := by
        simp [CppFfiItem.ffi_function, CppFfiItem.from_function, hom]
      have hheadpos : positionalArgCount (CppFfiItem.from_function m).ffi_function =
          rest.length := by
        show positionalArgCount m = rest.length
        rw [hpos]
        simp
      simp only [List.length_cons] at hlen
      refine ⟨?_, ?_, ?_⟩
      · rw [List.map_cons, ihom, hheadom]
        simp only [countDefaults, hd, if_true, List.length_cons]
        rw [List.range'_succ]
        simp only [List.cons.injEq]
        refine ⟨by omega, ?_⟩
        congr 1
        omega
      · rw [List.map_cons, ihpos, hheadpos]
        simp only [countDefaults, hd, if_true, List.length_cons]
        rw [List.range_succ_eq_map]
        simp only [List.map_cons, List.map_map, List.cons.injEq]
        refine ⟨by omega, ?_⟩
        apply List.map_congr_left
        intro j hj
        simp only [Function.comp_apply]
        omega
      · simp only [List.length_cons, ihlen, countDefaults, hd, if_true]
    · simp only [Bool.not_eq_true] at hd
      simp only [hd, Bool.false_eq_true, if_false, Prod.mk.injEq,
        Except.ok.injEq] at hok
      rcases hok with ⟨hms, _⟩
      subst hms
      simp [countDefaults, hd]

/-- C3: a non-variadic function with exactly k trailing defaulted
arguments whose synthesis succeeds yields exactly k plus one Boundary
Functions: the full-arity one first with omitted count zero, then one
per additional dropped trailing defaulted argument, with omitted counts
zero through k and strictly decreasing positional argument counts. -/
theorem c3_default_argument_expansion (oracle : FfiTypeOracle)
    (method : CppFunction) (movable_types : List CppPath)
    (np : FfiNameProvider) (ms : List CppFfiItem) (np2 : FfiNameProvider)
    (hok : generate_ffi_methods_for_method oracle method movable_types np =
      (.ok ms, np2)) :
    ms.length = trailingDefaultCount method.arguments + 1 ∧
    ms.map (fun i => omittedCountOf i.ffi_function) =
      List.range (trailingDefaultCount method.arguments + 1) ∧
    ms.map (fun i => positionalArgCount i.ffi_function) =
      (List.range (trailingDefaultCount method.arguments + 1)).map
        (fun j => method.arguments.length - j) ∧
    List.Pairwise (fun a b => b < a)
      (ms.map (fun i => positionalArgCount i.ffi_function)) := by
  have hkN : trailingDefaultCount method.arguments ≤ method.arguments.length := by
    have := countDefaults_le method.arguments.reverse
    simpa [trailingDefaultCount] using this
  unfold generate_ffi_methods_for_method at hok
  cases hg1 : to_ffi_method oracle (.Function method Option.none Option.none)
      movable_types np with
  | mk res1 np1 =>
  cases res1 with
  | error e => simp [hg1] at hok
  | ok first =>
  simp only [hg1] at hok
  have hf1 : (to_ffi_method oracle (.Function method Option.none Option.none)
      movable_types np).1 = .ok first := by rw [hg1]
  have hom1 := to_ffi_method_ok_omitted hf1
  have hpos1 := (to_ffi_method_ok_function hf1).2.1
  cases hlast : method.arguments.getLast? with
  | none =>
    simp only [hlast] at hok
    simp only [Prod.mk.injEq, Except.ok.injEq] at hok
    rcases hok with ⟨hms, _⟩
    subst hms
    have hnil : method.arguments = [] := List.getLast?_eq_none_iff.mp hlast
    simp only [hnil, trailingDefaultCount, List.reverse_nil, countDefaults]
    simp [CppFfiItem.ffi_function, CppFfiItem.from_function, hom1, hpos1, hnil,
      List.range_succ]
  | some last_arg =>
    simp only [hlast] at hok
    by_cases hd : last_arg.has_default_value = true
    · simp only [hd, if_true] at hok
      cases hg2 : overloadLoop oracle movable_types method
          method.arguments.reverse np1 with
      | mk res2 np2x =>
      cases res2 with
      | error e => simp [hg2] at hok
      | ok ms' =>
      simp only [hg2, Prod.mk.injEq, Except.ok.injEq] at hok
      rcases hok with ⟨hms, _⟩
      subst hms
      rcases overloadLoop_ok method.arguments.reverse np1 ms' np2x
          (by simp) hg2 with ⟨ihom, ihpos, ihlen⟩
      simp only [List.length_reverse, Nat.sub_self] at ihom ihpos
      have hkdef : countDefaults method.arguments.reverse =
          trailingDefaultCount method.arguments := rfl
      rw [hkdef] at ihom ihpos ihlen
      have hheadom : omittedCountOf (CppFfiItem.from_function first).ffi_function =
          0 := by
        simp [CppFfiItem.ffi_function, CppFfiItem.from_function, hom1]
      have hheadpos :
          positionalArgCount (CppFfiItem.from_function first).ffi_function =
          method.arguments.length := by
        simp [CppFfiItem.ffi_function, CppFfiItem.from_function, hpos1]
      have homs : (CppFfiItem.from_function first :: ms').map
          (fun i => omittedCountOf i.ffi_function) =
          List.range (trailingDefaultCount method.arguments + 1) := by
        rw [List.map_cons, ihom, hheadom]
        rw [List.range_eq_range', List.range'_succ]
      have hpositions : (CppFfiItem.from_function first :: ms').map
          (fun i => positionalArgCount i.ffi_function) =
          (List.range (trailingDefaultCount method.arguments + 1)).map
            (fun j => method.arguments.length - j) := by
        rw [List.map_cons, ihpos, hheadpos]
        rw [List.range_succ_eq_map]
        simp only [List.map_cons, List.map_map, List.cons.injEq]
        refine ⟨by omega, ?_⟩
        apply List.map_congr_left
        intro j hj
        simp only [Function.comp_apply]
        omega
      refine ⟨?_, homs, hpositions, ?_⟩
      · simp [ihlen, Nat.add_comm]
      · rw [hpositions]
        exact pairwise_sub_lt hkN
    · simp only [Bool.not_eq_true] at hd
      simp only [hd, Bool.false_eq_true, if_false, Prod.mk.injEq,
        Except.ok.injEq] at hok
      rcases hok with ⟨hms, _⟩
      subst hms
      have hk0 : trailingDefaultCount method.arguments = 0 := by
        unfold trailingDefaultCount
        cases hrev : method.arguments.reverse with
        | nil => simp [countDefaults]
        | cons x t =>
          have hx : x = last_arg := by
            have := List.head?_reverse method.arguments
            rw [hrev, hlast] at this
            simpa using this
          subst hx
          simp [countDefaults, hd]
      rw [hk0]
      simp [CppFfiItem.ffi_function, CppFfiItem.from_function, hom1, hpos1,
        List.range_succ]

/-- Witness for C3: a function with one trailing defaulted argument
yields two Boundary Functions with omitted counts zero and one and
positional counts two and one. -/
theorem c3_default_argument_expansion_witness :
    w3Items.length = trailingDefaultCount w3Fun.arguments + 1 ∧
    w3Items.map (fun i => omittedCountOf i.ffi_function) =
      List.range (trailingDefaultCount w3Fun.arguments + 1) ∧
    w3Items.map (fun i => positionalArgCount i.ffi_function) =
      (List.range (trailingDefaultCount w3Fun.arguments + 1)).map
        (fun j => w3Fun.arguments.length - j) ∧
    List.Pairwise (fun a b => b < a)
      (w3Items.map (fun i => positionalArgCount i.ffi_function)) :=
  c3_default_argument_expansion idOracle w3Fun [] npExample w3Items
    (generate_ffi_methods_for_method idOracle w3Fun [] npExample).2 rfl

theorem charToDigit_digitChar : ∀ d, d < 10 → charToDigit (digitChar d) = d := by
  decide

theorem decRevVal_natToDecRev : ∀ (fuel n : Nat), n ≤ fuel →
    decRevVal (natToDecRev fuel n) = n := by
  intro fuel
  induction fuel with
  | zero =>
    intro n h
    have : n = 0 := Nat.le_zero.mp h
    subst this
    rfl
  | succ fuel ih =>
    intro n h
    by_cases h0 : n = 0
    · subst h0
      simp [natToDecRev, decRevVal]
    · simp only [natToDecRev, h0, if_false]
      simp only [decRevVal]
      have hdiv : n / 10 ≤ fuel := by
        have hlt : n / 10 < n :=
          Nat.div_lt_self (Nat.pos_of_ne_zero h0) (by norm_num)
        omega
      rw [ih (n / 10) hdiv]
      rw [charToDigit_digitChar (n % 10) (Nat.mod_lt n (by norm_num))]
      exact Nat.mod_add_div n 10

theorem decodeNat_natToString (n : Nat) : decodeNat (natToString n) = n := by
  by_cases h0 : n = 0
  · subst h0
    rfl
  · simp only [natToString, h0, if_false, decodeNat]
    rw [List.reverse_reverse]
    exact decRevVal_natToDecRev n n le_rfl

theorem natToString_injective : Function.Injective natToString := by
  intro a b h
  have := congrArg decodeNat h
  rwa [decodeNat_natToString, decodeNat_natToString] at this

theorem natToDecRev_ne_nil (n : Nat) (h : 0 < n) : natToDecRev n n ≠ [] := by
  cases n with
  | zero => omega
  | succ m => simp [natToDecRev]

theorem natToString_ne_empty (n : Nat) (h : 0 < n) : natToString n ≠ "" := by
  have hn : n ≠ 0 := by omega
  simp only [natToString, hn, if_false]
  intro hcon
  have hdata := congrArg String.data hcon
  rw [show (String.mk (natToDecRev n n).reverse).data =
    (natToDecRev n n).reverse from rfl] at hdata
  rw [show ("" : String).data = [] from rfl] at hdata
  rw [List.reverse_eq_nil_iff] at hdata
  exact natToDecRev_ne_nil n h hdata

theorem string_append_cancel {s a b : String} (h : s ++ a = s ++ b) : a = b := by
  have hd := congrArg String.data h
  simp only [String.data_append] at hd
  exact String.ext (List.append_cancel_left hd)

theorem candidateName_injective (pre base : String) :
    Function.Injective (candidateName pre base) := by
  intro i j h
  unfold candidateName at h
  have hsfx : (if i = 0 then "" else natToString i) =
      (if j = 0 then "" else natToString j) := string_append_cancel h
  rcases Nat.eq_zero_or_pos i with hi | hi <;>
    rcases Nat.eq_zero_or_pos j with hj | hj
  · omega
  · rw [if_pos hi, if_neg (by omega)] at hsfx
    exact absurd hsfx.symm (natToString_ne_empty j hj)
  · rw [if_neg (by omega), if_pos hj] at hsfx
    exact absurd hsfx (natToString_ne_empty i hi)
  · rw [if_neg (by omega), if_neg (by omega)] at hsfx
    exact natToString_injective hsfx

theorem exists_fresh_index (names : List String) (f : Nat → String)
    (hf : Function.Injective f) : ∃ k, k ≤ names.length ∧ f k ∉ names := by
  by_contra hc
  push_neg at hc
  have hsub : (List.range (names.length + 1)).map f ⊆ names := by
    intro s hs
    rcases List.mem_map.1 hs with ⟨k, hk, rfl⟩
    exact hc k (Nat.lt_succ_iff.mp (List.mem_range.1 hk))
  have hnd : ((List.range (names.length + 1)).map f).Nodup :=
    (List.nodup_range _).map hf
  have hle := (hnd.subperm hsub).length_le
  simp only [List.length_map, List.length_range] at hle
  omega

theorem contains_iff_mem_str (l : List String) (s : String) :
    l.contains s = true ↔ s ∈ l := by
  induction l with
  | nil => simp
  | cons a t ih =>
    simp [List.contains_cons, ih]

theorem findFreeName_spec (names : List String) (pre base : String) :
    ∀ (fuel cur : Nat),
    (∃ k, k < fuel ∧ candidateName pre base (cur + k) ∉ names) →
    ∃ k, findFreeName names pre base cur fuel = candidateName pre base (cur + k) ∧
      candidateName pre base (cur + k) ∉ names ∧
      ∀ j, j < k → candidateName pre base (cur + j) ∈ names := by
  intro fuel
  induction fuel with
  | zero =>
    intro cur hex
    rcases hex with ⟨k, hk, _⟩
    omega
  | succ fuel ih =>
    intro cur hex
    by_cases hc : names.contains (candidateName pre base cur) = true
    · have hmem : candidateName pre base cur ∈ names :=
        (contains_iff_mem_str names _).mp hc
      rcases hex with ⟨k, hk, hfree⟩
      have hkpos : k ≠ 0 := by
        intro h0
        subst h0
        rw [Nat.add_zero] at hfree
        exact hfree hmem
      obtain ⟨k', rfl⟩ : ∃ k', k = k' + 1 := ⟨k - 1, by omega⟩
      have hex2 : ∃ k2, k2 < fuel ∧
          candidateName pre base (cur + 1 + k2) ∉ names := by
        refine ⟨k', by omega, ?_⟩
        rw [show cur + 1 + k' = cur + (k' + 1) from by omega]
        exact hfree
      rcases ih (cur + 1) hex2 with ⟨k2, hres, hfree2, hprev⟩
      refine ⟨k2 + 1, ?_, ?_, ?_⟩
      · show findFreeName names pre base cur (fuel + 1) = _
        unfold findFreeName
        simp only [hc, if_true]
        rw [hres]
        congr 1
        omega
      · rw [show cur + (k2 + 1) = cur + 1 + k2 from by omega]
        exact hfree2
      · intro j hj
        cases j with
        | zero =>
          rw [Nat.add_zero]
          exact hmem
        | succ j' =>
          rw [show cur + (j' + 1) = cur + 1 + j' from by omega]
          exact hprev j' (by omega)
    · refine ⟨0, ?_, ?_, ?_⟩
      · show findFreeName names pre base cur (fuel + 1) = _
        unfold findFreeName
        simp only [hc, Bool.false_eq_true, if_false]
        rw [Nat.add_zero]
      · rw [Nat.add_zero]
        intro hmem
        exact hc ((contains_iff_mem_str names _).mpr hmem)
      · intro j hj
        omega

theorem create_path_spec (np : FfiNameProvider) (base : String) :
    ∃ k, (np.create_path base).1 = CppPath.from_item (CppPathItem.from_good_str
        (candidateName np.pref base k)) ∧
      candidateName np.pref base k ∉ np.names ∧
      (∀ j, j < k → candidateName np.pref base j ∈ np.names) ∧
      (np.create_path base).2 =
        { np with names := candidateName np.pref base k :: np.names } := by
  rcases exists_fresh_index np.names (candidateName np.pref base)
      (candidateName_injective np.pref base) with ⟨k0, hk0, hfree0⟩
  have hex : ∃ k, k < np.names.length + 1 ∧
      candidateName np.pref base (0 + k) ∉ np.names := by
    refine ⟨k0, by omega, ?_⟩
    rw [Nat.zero_add]
    exact hfree0
  rcases findFreeName_spec np.names np.pref base (np.names.length + 1) 0 hex with
    ⟨k, hres, hfree, hprev⟩
  refine ⟨k, ?_, ?_, ?_, ?_⟩
  · show CppPath.from_item (CppPathItem.from_good_str
      (findFreeName np.names np.pref base 0 (np.names.length + 1))) = _
    rw [hres, Nat.zero_add]
  · rw [← Nat.zero_add k]
    exact hfree
  · intro j hj
    have := hprev j hj
    rwa [Nat.zero_add] at this
  · show ({ np with names := findFreeName np.names np.pref base 0 (np.names.length + 1) :: np.names } : FfiNameProvider) = _
    rw [hres, Nat.zero_add]

theorem createPaths_spec (reqs : List String) : ∀ (np : FfiNameProvider),
    ((createPaths np reqs).1.map CppPath.soleName).Nodup ∧
    ∀ s ∈ (createPaths np reqs).1.map CppPath.soleName, s ∉ np.names := by
  induction reqs with
  | nil =>
    intro np
    simp [createPaths]
  | cons r rs ih =>
    intro np
    rcases create_path_spec np r with ⟨k, hp, hfree, _, hnp2⟩
    have hfst : (createPaths np (r :: rs)).1 =
        (np.create_path r).1 :: (createPaths (np.create_path r).2 rs).1 := rfl
    have hsole : CppPath.soleName (np.create_path r).1 =
        candidateName np.pref r k := by
      rw [hp]
      rfl
    rcases ih (np.create_path r).2 with ⟨ihnd, ihavoid⟩
    constructor
    · rw [hfst, List.map_cons, List.nodup_cons, hsole]
      refine ⟨?_, ihnd⟩
      intro hmem
      have hnot := ihavoid _ hmem
      rw [hnp2] at hnot
      exact hnot (List.mem_cons_self _ _)
    · intro s hs
      rw [hfst, List.map_cons, hsole] at hs
      rcases List.mem_cons.1 hs with rfl | hs2
      · exact hfree
      · have hnot := ihavoid s hs2
        rw [hnp2] at hnot
        intro hmem
        exact hnot (List.mem_cons_of_mem _ hmem)

/-- C7: each call to the name allocator returns a path distinct from
every path returned by earlier calls in the run and from every name
loaded from the persisted output of a prior run; the candidates tried
are the prefixed base name, then the same with decimal suffixes one,
two, and so on, until an unseen name is found, which is reserved
immediately. -/
theorem c7_name_allocator_uniqueness :
    (∀ (np : FfiNameProvider) (base : String), ∃ k,
      (np.create_path base).1 = CppPath.from_item (CppPathItem.from_good_str
        (candidateName np.pref base k)) ∧
      candidateName np.pref base k ∉ np.names ∧
      (∀ j, j < k → candidateName np.pref base j ∈ np.names) ∧
      (np.create_path base).2 =
        { np with names := candidateName np.pref base k :: np.names }) ∧
    (∀ (np : FfiNameProvider) (reqs : List String),
      ((createPaths np reqs).1.map CppPath.soleName).Nodup ∧
      (∀ s ∈ (createPaths np reqs).1.map CppPath.soleName, s ∉ np.names) ∧
      (createPaths np reqs).1.Nodup) := by
  refine ⟨create_path_spec, fun np reqs => ?_⟩
  rcases createPaths_spec reqs np with ⟨hnd, havoid⟩
  exact ⟨hnd, havoid, hnd.of_map _⟩

/-- Witness for C7: two requests for the same base name from an empty
allocator yield distinct paths. -/
theorem c7_name_allocator_uniqueness_witness :
    ((createPaths npExample ["f", "f"]).1.map CppPath.soleName).Nodup ∧
    (∀ s ∈ (createPaths npExample ["f", "f"]).1.map CppPath.soleName,
      s ∉ npExample.names) ∧
    (createPaths npExample ["f", "f"]).1.Nodup :=
  c7_name_allocator_uniqueness.2 npExample ["f", "f"]

theorem exceptOk_map {f : CppFfiFunction → CppFfiItem}
    {e : Except String CppFfiFunction} :
    exceptOk (e.map f) = exceptOk e := by
  cases e <;> rfl

theorem to_ffi_method_isOk {oracle : FfiTypeOracle} {kind : CppFfiFunctionKind}
    {movable_types : List CppPath} (np : FfiNameProvider) :
    exceptOk (to_ffi_method oracle kind movable_types np).1 =
    synthesisOk oracle kind := by
  rw [to_ffi_method_fst]
  unfold to_ffi_method_core synthesisOk
  cases h1 : thisArgType kind with
  | error e => rfl
  | ok othis =>
  simp only []
  cases h2 : buildThisArgs oracle othis with
  | error e => rfl
  | ok this_args =>
  simp only []
  cases h3 : normalArgs kind with
  | error e => rfl
  | ok nargs =>
  simp only []
  cases h4 : convertArguments oracle nargs 0 with
  | error e => rfl
  | ok conv =>
  simp only []
  cases h5 : oracle (realReturnType kind) .ReturnType with
  | error e => rfl
  | ok rrt_ffi => rfl

theorem overloadLoop_isOk {oracle : FfiTypeOracle} {movable_types : List CppPath}
    {method : CppFunction} :
    ∀ (rev : List CppFunctionArgument) (np : FfiNameProvider),
    exceptOk (overloadLoop oracle movable_types method rev np).1 =
    overloadLoopOk oracle method rev := by
  intro rev
  induction rev with
  | nil => intro np; rfl
  | cons arg rest ih =>
    intro np
    unfold overloadLoop overloadLoopOk
    by_cases hd : arg.has_default_value = true
    · simp only [hd, if_true]
      have hs := @to_ffi_method_isOk oracle
        (.Function { method with arguments := rest.reverse }
          (Option.some (method.arguments.length - rest.length)) Option.none)
        movable_types np
      rw [show to_ffi_method oracle
          (.Function { method with arguments := rest.reverse }
            (Option.some (method.arguments.length - rest.length)) Option.none)
          movable_types np =
        ((to_ffi_method oracle
          (.Function { method with arguments := rest.reverse }
            (Option.some (method.arguments.length - rest.length)) Option.none)
          movable_types np).1,
         (to_ffi_method oracle
          (.Function { method with arguments := rest.reverse }
            (Option.some (method.arguments.length - rest.length)) Option.none)
          movable_types np).2) from rfl]
      cases hA : (to_ffi_method oracle
          (.Function { method with arguments := rest.reverse }
            (Option.some (method.arguments.length - rest.length)) Option.none)
          movable_types np).1 with
      | error e =>
        rw [hA] at hs
        rw [← hs]
        rfl
      | ok m =>
        rw [hA] at hs
        rw [← hs]
        simp only []
        rw [show overloadLoop oracle movable_types method rest
            (to_ffi_method oracle
              (.Function { method with arguments := rest.reverse }
                (Option.some (method.arguments.length - rest.length)) Option.none)
              movable_types np).2 =
          ((overloadLoop oracle movable_types method rest
            (to_ffi_method oracle
              (.Function { method with arguments := rest.reverse }
                (Option.some (method.arguments.length - rest.length)) Option.none)
              movable_types np).2).1,
           (overloadLoop oracle movable_types method rest
            (to_ffi_method oracle
              (.Function { method with arguments := rest.reverse }
                (Option.some (method.arguments.length - rest.length)) Option.none)
              movable_types np).2).2) from rfl]
        have hih := ih (to_ffi_method oracle
          (.Function { method with arguments := rest.reverse }
            (Option.some (method.arguments.length - rest.length)) Option.none)
          movable_types np).2
        cases hB : (overloadLoop oracle movable_types method rest
            (to_ffi_method oracle
              (.Function { method with arguments := rest.reverse }
                (Option.some (method.arguments.length - rest.length)) Option.none)
              movable_types np).2).1 with
        | error e =>
          rw [hB] at hih
          rw [← hih]
          rfl
        | ok ms =>
          rw [hB] at hih
          rw [← hih]
          rfl
    · simp only [Bool.not_eq_true] at hd
      simp only [hd, Bool.false_eq_true, if_false]
      rfl

theorem prod_eta_pair {α β : Type} (e : α × β) : e = (e.1, e.2) := rfl

theorem generate_ffi_methods_isOk {oracle : FfiTypeOracle}
    {method : CppFunction} {movable_types : List CppPath} (np : FfiNameProvider) :
    exceptOk (generate_ffi_methods_for_method oracle method movable_types np).1 =
    genMethodsOk oracle method := by
  unfold generate_ffi_methods_for_method genMethodsOk
  have hs := @to_ffi_method_isOk oracle
    (.Function method Option.none Option.none) movable_types np
  rw [prod_eta_pair (to_ffi_method oracle
    (.Function method Option.none Option.none) movable_types np)]
  cases hA : (to_ffi_method oracle (.Function method Option.none Option.none)
      movable_types np).1 with
  | error e =>
    rw [hA] at hs
    rw [← hs]
    rfl
  | ok first =>
    rw [hA] at hs
    rw [← hs]
    simp only []
    cases hlast : method.arguments.getLast? with
    | none => rfl
    | some last_arg =>
      simp only []
      by_cases hd : last_arg.has_default_value = true
      · simp only [hd, if_true]
        have hloop := @overloadLoop_isOk oracle movable_types method
          method.arguments.reverse
          (to_ffi_method oracle (.Function method Option.none Option.none)
            movable_types np).2
        rw [prod_eta_pair (overloadLoop oracle movable_types method
          method.arguments.reverse
          (to_ffi_method oracle (.Function method Option.none Option.none)
            movable_types np).2)]
        cases hB : (overloadLoop oracle movable_types method
            method.arguments.reverse
            (to_ffi_method oracle (.Function method Option.none Option.none)
              movable_types np).2).1 with
        | error e =>
          rw [hB] at hloop
          rw [← hloop]
          rfl
        | ok ms =>
          rw [hB] at hloop
          rw [← hloop]
          rfl
      · simp only [Bool.not_eq_true] at hd
        simp only [hd, Bool.false_eq_true, if_false]
        rfl

theorem create_cast_method_isOk (oracle : FfiTypeOracle) (cast : CppCast)
    (src dst : CppType) (np : FfiNameProvider) :
    exceptOk (create_cast_method oracle cast src dst np).1 =
    castOkOne oracle cast src dst := by
  unfold create_cast_method castOkOne
  rw [exceptOk_map]
  exact to_ffi_method_isOk np

theorem generate_casts_isOk (oracle : FfiTypeOracle) (base : CppBaseSpecifier)
    (np : FfiNameProvider) :
    exceptOk (generate_casts oracle base np).1 = genCastsOk oracle base := by
  unfold generate_casts generate_casts_one genCastsOk
  simp only []
  have h1 := create_cast_method_isOk oracle (.Static true base.base_index)
    (.PointerLike false .Pointer (.Class base.base_class_type))
    (.PointerLike false .Pointer (.Class base.derived_class_type)) np
  rw [prod_eta_pair (create_cast_method oracle (.Static true base.base_index)
    (.PointerLike false .Pointer (.Class base.base_class_type))
    (.PointerLike false .Pointer (.Class base.derived_class_type)) np)]
  cases hA : (create_cast_method oracle (.Static true base.base_index)
      (.PointerLike false .Pointer (.Class base.base_class_type))
      (.PointerLike false .Pointer (.Class base.derived_class_type)) np).1 with
  | error e =>
    rw [hA] at h1
    rw [← h1]
    rfl
  | ok m1 =>
    rw [hA] at h1
    rw [← h1]
    simp only []
    have h2 := create_cast_method_isOk oracle (.Static false base.base_index)
      (.PointerLike false .Pointer (.Class base.derived_class_type))
      (.PointerLike false .Pointer (.Class base.base_class_type))
      (create_cast_method oracle (.Static true base.base_index)
        (.PointerLike false .Pointer (.Class base.base_class_type))
        (.PointerLike false .Pointer (.Class base.derived_class_type)) np).2
    rw [prod_eta_pair (create_cast_method oracle (.Static false base.base_index)
      (.PointerLike false .Pointer (.Class base.derived_class_type))
      (.PointerLike false .Pointer (.Class base.base_class_type))
      (create_cast_method oracle (.Static true base.base_index)
        (.PointerLike false .Pointer (.Class base.base_class_type))
        (.PointerLike false .Pointer (.Class base.derived_class_type)) np).2)]
    cases hB : (create_cast_method oracle (.Static false base.base_index)
        (.PointerLike false .Pointer (.Class base.derived_class_type))
        (.PointerLike false .Pointer (.Class base.base_class_type))
        (create_cast_method oracle (.Static true base.base_index)
          (.PointerLike false .Pointer (.Class base.base_class_type))
          (.PointerLike false .Pointer (.Class base.derived_class_type)) np).2).1 with
    | error e =>
      rw [hB] at h2
      rw [← h2]
      rfl
    | ok m2 =>
      rw [hB] at h2
      rw [← h2]
      simp only []
      have h3 := create_cast_method_isOk oracle .Dynamic
        (.PointerLike false .Pointer (.Class base.base_class_type))
        (.PointerLike false .Pointer (.Class base.derived_class_type))
        (create_cast_method oracle (.Static false base.base_index)
          (.PointerLike false .Pointer (.Class base.derived_class_type))
          (.PointerLike false .Pointer (.Class base.base_class_type))
          (create_cast_method oracle (.Static true base.base_index)
            (.PointerLike false .Pointer (.Class base.base_class_type))
            (.PointerLike false .Pointer (.Class base.derived_class_type)) np).2).2
      rw [prod_eta_pair (create_cast_method oracle .Dynamic
        (.PointerLike false .Pointer (.Class base.base_class_type))
        (.PointerLike false .Pointer (.Class base.derived_class_type))
        (create_cast_method oracle (.Static false base.base_index)
          (.PointerLike false .Pointer (.Class base.derived_class_type))
          (.PointerLike false .Pointer (.Class base.base_class_type))
          (create_cast_method oracle (.Static true base.base_index)
            (.PointerLike false .Pointer (.Class base.base_class_type))
            (.PointerLike false .Pointer (.Class base.derived_class_type)) np).2).2)]
      cases hC : (create_cast_method oracle .Dynamic
          (.PointerLike false .Pointer (.Class base.base_class_type))
          (.PointerLike false .Pointer (.Class base.derived_class_type))
          (create_cast_method oracle (.Static false base.base_index)
            (.PointerLike false .Pointer (.Class base.derived_class_type))
            (.PointerLike false .Pointer (.Class base.base_class_type))
            (create_cast_method oracle (.Static true base.base_index)
              (.PointerLike false .Pointer (.Class base.base_class_type))
              (.PointerLike false .Pointer (.Class base.derived_class_type))
              np).2).2).1 with
      | error e =>
        rw [hC] at h3
        rw [← h3]
        rfl
      | ok m3 =>
        rw [hC] at h3
        rw [← h3]
        rfl

theorem generate_field_accessors_isOk {oracle : FfiTypeOracle}
    {field : CppClassField} {movable_types : List CppPath} (np : FfiNameProvider) :
    exceptOk (generate_field_accessors oracle field movable_types np).1 =
    genFieldAccessorsOk oracle field := by
  unfold generate_field_accessors genFieldAccessorsOk
  by_cases hv : field.visibility = .Public
  · simp only [hv, if_true]
    by_cases hcl : field.field_type.is_class = true
    · simp only [hcl, if_true]
      have h1 := @to_ffi_method_isOk oracle
        (.FieldAccessor field .ConstRefGetter) movable_types np
      rw [prod_eta_pair (to_ffi_method oracle
        (.FieldAccessor field .ConstRefGetter) movable_types np)]
      cases hA : (to_ffi_method oracle (.FieldAccessor field .ConstRefGetter)
          movable_types np).1 with
      | error e =>
        rw [hA] at h1
        rw [← h1]
        rfl
      | ok m1 =>
        rw [hA] at h1
        rw [← h1]
        simp only []
        have h2 := @to_ffi_method_isOk oracle
          (.FieldAccessor field .MutRefGetter) movable_types
          (to_ffi_method oracle (.FieldAccessor field .ConstRefGetter)
            movable_types np).2
        rw [prod_eta_pair (to_ffi_method oracle
          (.FieldAccessor field .MutRefGetter) movable_types
          (to_ffi_method oracle (.FieldAccessor field .ConstRefGetter)
            movable_types np).2)]
        cases hB : (to_ffi_method oracle (.FieldAccessor field .MutRefGetter)
            movable_types
            (to_ffi_method oracle (.FieldAccessor field .ConstRefGetter)
              movable_types np).2).1 with
        | error e =>
          rw [hB] at h2
          rw [← h2]
          rfl
        | ok m2 =>
          rw [hB] at h2
          rw [← h2]
          simp only []
          have h3 := @to_ffi_method_isOk oracle
            (.FieldAccessor field .Setter) movable_types
            (to_ffi_method oracle (.FieldAccessor field .MutRefGetter)
              movable_types
              (to_ffi_method oracle (.FieldAccessor field .ConstRefGetter)
                movable_types np).2).2
          rw [prod_eta_pair (to_ffi_method oracle
            (.FieldAccessor field .Setter) movable_types
            (to_ffi_method oracle (.FieldAccessor field .MutRefGetter)
              movable_types
              (to_ffi_method oracle (.FieldAccessor field .ConstRefGetter)
                movable_types np).2).2)]
          cases hC : (to_ffi_method oracle (.FieldAccessor field .Setter)
              movable_types
              (to_ffi_method oracle (.FieldAccessor field .MutRefGetter)
                movable_types
                (to_ffi_method oracle (.FieldAccessor field .ConstRefGetter)
                  movable_types np).2).2).1 with
          | error e =>
            rw [hC] at h3
            rw [← h3]
            rfl
          | ok m3 =>
            rw [hC] at h3
            rw [← h3]
            rfl
    · simp only [hcl, Bool.false_eq_true, if_false]
      have h1 := @to_ffi_method_isOk oracle
        (.FieldAccessor field .CopyGetter) movable_types np
      rw [prod_eta_pair (to_ffi_method oracle
        (.FieldAccessor field .CopyGetter) movable_types np)]
      cases hA : (to_ffi_method oracle (.FieldAccessor field .CopyGetter)
          movable_types np).1 with
      | error e =>
        rw [hA] at h1
        rw [← h1]
        rfl
      | ok m1 =>
        rw [hA] at h1
        rw [← h1]
        simp only []
        have h2 := @to_ffi_method_isOk oracle
          (.FieldAccessor field .Setter) movable_types
          (to_ffi_method oracle (.FieldAccessor field .CopyGetter)
            movable_types np).2
        rw [prod_eta_pair (to_ffi_method oracle
          (.FieldAccessor field .Setter) movable_types
          (to_ffi_method oracle (.FieldAccessor field .CopyGetter)
            movable_types np).2)]
        cases hB : (to_ffi_method oracle (.FieldAccessor field .Setter)
            movable_types
            (to_ffi_method oracle (.FieldAccessor field .CopyGetter)
              movable_types np).2).1 with
        | error e =>
          rw [hB] at h2
          rw [← h2]
          rfl
        | ok m2 =>
          rw [hB] at h2
          rw [← h2]
          rfl
  · simp only [hv, if_false]
    rfl

theorem generate_ffi_items_isOk {oracle : FfiTypeOracle}
    {movable_types : List CppPath} (d : CppItemData) (np : FfiNameProvider) :
    exceptOk (generate_ffi_items oracle movable_types d np).1 =
    genItemsOk oracle d := by
  cases d
  next td => rfl
  next p => rfl
  next p => rfl
  next method => exact generate_ffi_methods_isOk np
  next field => exact generate_field_accessors_isOk np
  next base => exact generate_casts_isOk oracle base np

theorem processItems_cpp_data (oracle : FfiTypeOracle)
    (movable_types : List CppPath) :
    ∀ (items : List CppDatabaseItem) (np : FfiNameProvider),
    (processItems oracle movable_types items np).1.map CppDatabaseItem.cpp_data =
    items.map CppDatabaseItem.cpp_data := by
  intro items
  induction items with
  | nil => intro np; rfl
  | cons item rest ih =>
    intro np
    unfold processItems
    simp only []
    by_cases hflag : item.is_cpp_ffi_processed = true
    · simp only [hflag, if_true, List.map_cons, ih]
    · simp only [Bool.not_eq_true] at hflag
      simp only [hflag, Bool.false_eq_true, if_false]
      by_cases hproc : should_process_item item.cpp_data = true
      · simp only [hproc, Bool.not_true, Bool.false_eq_true, if_false]
        rw [prod_eta_pair (generate_ffi_items oracle movable_types item.cpp_data np)]
        cases hg : (generate_ffi_items oracle movable_types item.cpp_data np).1 with
        | error e => simp only [List.map_cons, ih]
        | ok produced => simp only [List.map_cons, ih]
      · simp only [Bool.not_eq_true] at hproc
        simp only [hproc, Bool.not_false, if_true, List.map_cons, ih]

theorem processItems_settled (oracle : FfiTypeOracle)
    (movable_types : List CppPath) :
    ∀ (items : List CppDatabaseItem) (np : FfiNameProvider),
    ∀ it ∈ (processItems oracle movable_types items np).1,
    settledItem oracle movable_types it := by
  intro items
  induction items with
  | nil => intro np it hmem; cases hmem
  | cons item rest ih =>
    intro np it hmem
    rw [show processItems oracle movable_types (item :: rest) np =
      (if item.is_cpp_ffi_processed then
        let r := processItems oracle movable_types rest np
        (item :: r.1, r.2.1, r.2.2)
      else if !should_process_item item.cpp_data then
        let r := processItems oracle movable_types rest np
        (item :: r.1, r.2.1, r.2.2)
      else
        match generate_ffi_items oracle movable_types item.cpp_data np with
        | (.error _, np1) =>
            let r := processItems oracle movable_types rest np1
            (item :: r.1, r.2.1, r.2.2)
        | (.ok produced, np1) =>
            let r := processItems oracle movable_types rest np1
            ({ item with is_cpp_ffi_processed := true } :: r.1,
             produced ++ r.2.1, r.2.2)) from rfl] at hmem
    by_cases hflag : item.is_cpp_ffi_processed = true
    · simp only [hflag, if_true] at hmem
      rcases List.mem_cons.mp hmem with rfl | hm
      · exact Or.inl hflag
      · exact ih np it hm
    · simp only [Bool.not_eq_true] at hflag
      simp only [hflag, Bool.false_eq_true, if_false] at hmem
      by_cases hproc : should_process_item item.cpp_data = true
      · simp only [hproc, Bool.not_true, Bool.false_eq_true, if_false] at hmem
        rw [prod_eta_pair (generate_ffi_items oracle movable_types
          item.cpp_data np)] at hmem
        cases hg : (generate_ffi_items oracle movable_types item.cpp_data np).1 with
        | error e =>
          simp only [hg] at hmem
          rcases List.mem_cons.mp hmem with rfl | hm
          · refine Or.inr (Or.inr ?_)
            intro np2
            have h1 := @generate_ffi_items_isOk oracle movable_types
              it.cpp_data np
            have h2 := @generate_ffi_items_isOk oracle movable_types
              it.cpp_data np2
            rw [hg] at h1
            rw [h2, ← h1]
            rfl
          · exact ih _ it hm
        | ok produced =>
          simp only [hg] at hmem
          rcases List.mem_cons.mp hmem with rfl | hm
          · exact Or.inl rfl
          · exact ih _ it hm
      · simp only [Bool.not_eq_true] at hproc
        simp only [hproc, Bool.not_false, if_true] at hmem
        rcases List.mem_cons.mp hmem with rfl | hm
        · exact Or.inr (Or.inl hproc)
        · exact ih np it hm

theorem processItems_of_settled (oracle : FfiTypeOracle)
    (movable_types : List CppPath) :
    ∀ (items : List CppDatabaseItem) (np : FfiNameProvider),
    (∀ it ∈ items, settledItem oracle movable_types it) →
    (processItems oracle movable_types items np).1 = items ∧
    (processItems oracle movable_types items np).2.1 = [] := by
  intro items
  induction items with
  | nil => intro np h; exact ⟨rfl, rfl⟩
  | cons item rest ih =>
    intro np h
    have hhead := h item (List.mem_cons_self item rest)
    have htail : ∀ it ∈ rest, settledItem oracle movable_types it :=
      fun it hm => h it (List.mem_cons_of_mem item hm)
    unfold processItems
    simp only []
    by_cases hflag : item.is_cpp_ffi_processed = true
    · simp only [hflag, if_true]
      exact ⟨by rw [(ih np htail).1], (ih np htail).2⟩
    · simp only [Bool.not_eq_true] at hflag
      simp only [hflag, Bool.false_eq_true, if_false]
      by_cases hproc : should_process_item item.cpp_data = true
      · simp only [hproc, Bool.not_true, Bool.false_eq_true, if_false]
        have hfail : ∀ np2,
            exceptOk (generate_ffi_items oracle movable_types
              item.cpp_data np2).1 = false := by
          rcases hhead with h1 | h2 | h3
          · rw [hflag] at h1; cases h1
          · rw [hproc] at h2; cases h2
          · exact h3
        rw [prod_eta_pair (generate_ffi_items oracle movable_types
          item.cpp_data np)]
        cases hg : (generate_ffi_items oracle movable_types item.cpp_data np).1 with
        | error e =>
          simp only []
          exact ⟨by rw [(ih _ htail).1],
            (ih (generate_ffi_items oracle movable_types item.cpp_data np).2
              htail).2⟩
        | ok produced =>
          exfalso
          have := hfail np
          rw [hg] at this
          cases this
      · simp only [Bool.not_eq_true] at hproc
        simp only [hproc, Bool.not_false, if_true]
        exact ⟨by rw [(ih np htail).1], (ih np htail).2⟩

/-- C8: running the Driver a second time over the unchanged model left
by a first run (same item sequence, carrying the Processed Flags and
the persisted Boundary Functions of the first run) appends no new
Boundary Functions to the persisted collection. -/
theorem c8_run_idempotent (oracle : FfiTypeOracle) (crate_name : String)
    (db : Database) :
    (run oracle crate_name (run oracle crate_name db)).ffi_items =
    (run oracle crate_name db).ffi_items := by
  have hmap : (run oracle crate_name db).cpp_items.map CppDatabaseItem.cpp_data =
      db.cpp_items.map CppDatabaseItem.cpp_data :=
    processItems_cpp_data oracle
      (movableTypes (db.cpp_items.map CppDatabaseItem.cpp_data))
      db.cpp_items (FfiNameProvider.new crate_name db)
  have hset : ∀ it ∈ (run oracle crate_name db).cpp_items,
      settledItem oracle
        (movableTypes (db.cpp_items.map CppDatabaseItem.cpp_data)) it :=
    fun it h => processItems_settled oracle
      (movableTypes (db.cpp_items.map CppDatabaseItem.cpp_data))
      db.cpp_items (FfiNameProvider.new crate_name db) it h
  show (run oracle crate_name db).ffi_items ++
      (processItems oracle
        (movableTypes ((run oracle crate_name db).cpp_items.map
          CppDatabaseItem.cpp_data))
        (run oracle crate_name db).cpp_items
        (FfiNameProvider.new crate_name (run oracle crate_name db))).2.1 =
    (run oracle crate_name db).ffi_items
  rw [hmap]
  rw [(processItems_of_settled oracle
    (movableTypes (db.cpp_items.map CppDatabaseItem.cpp_data))
    (run oracle crate_name db).cpp_items
    (FfiNameProvider.new crate_name (run oracle crate_name db)) hset).2]
  exact List.append_nil _

/-- C10: recording of output is all-or-nothing per item: when one
eligible unprocessed item in the sweep fails generation (for every
allocator state), the swept list keeps that item with its Processed
Flag still unset, none of its Boundary Functions are appended, and
every item before and after it is still processed normally, with the
allocator threaded through the failed attempt. -/
theorem c10_item_failure_isolated (oracle : FfiTypeOracle)
    (movable_types : List CppPath) (pre : List CppDatabaseItem)
    (item : CppDatabaseItem) (post : List CppDatabaseItem)
    (np : FfiNameProvider)
    (hflag : item.is_cpp_ffi_processed = false)
    (hproc : should_process_item item.cpp_data = true)
    (herr : ∀ np2, exceptOk (generate_ffi_items oracle movable_types
      item.cpp_data np2).1 = false) :
    processItems oracle movable_types (pre ++ item :: post) np =
      ((processItems oracle movable_types pre np).1 ++ item ::
        (processItems oracle movable_types post
          (generate_ffi_items oracle movable_types item.cpp_data
            (processItems oracle movable_types pre np).2.2).2).1,
       (processItems oracle movable_types pre np).2.1 ++
        (processItems oracle movable_types post
          (generate_ffi_items oracle movable_types item.cpp_data
            (processItems oracle movable_types pre np).2.2).2).2.1,
       (processItems oracle movable_types post
          (generate_ffi_items oracle movable_types item.cpp_data
            (processItems oracle movable_types pre np).2.2).2).2.2) := by
  have step : ∀ (it : CppDatabaseItem) (rest : List CppDatabaseItem)
      (np0 : FfiNameProvider),
      processItems oracle movable_types (it :: rest) np0 =
      (if it.is_cpp_ffi_processed then
        let r := processItems oracle movable_types rest np0
        (it :: r.1, r.2.1, r.2.2)
      else if !should_process_item it.cpp_data then
        let r := processItems oracle movable_types rest np0
        (it :: r.1, r.2.1, r.2.2)
      else
        match generate_ffi_items oracle movable_types it.cpp_data np0 with
        | (.error _, np1) =>
            let r := processItems oracle movable_types rest np1
            (it :: r.1, r.2.1, r.2.2)
        | (.ok produced, np1) =>
            let r := processItems oracle movable_types rest np1
            ({ it with is_cpp_ffi_processed := true } :: r.1,
             produced ++ r.2.1, r.2.2)) := fun it rest np0 => rfl
  induction pre generalizing np with
  | nil =>
    show processItems oracle movable_types (item :: post) np = _
    rw [step item post np]
    simp only [hflag, Bool.false_eq_true, if_false, hproc, Bool.not_true]
    rw [prod_eta_pair (generate_ffi_items oracle movable_types item.cpp_data np)]
    cases hg : (generate_ffi_items oracle movable_types item.cpp_data np).1 with
    | error e =>
      simp only []
      rfl
    | ok produced =>
      exfalso
      have h2 := herr np
      rw [hg] at h2
      simp [exceptOk] at h2
  | cons p pre ih =>
    show processItems oracle movable_types (p :: (pre ++ item :: post)) np = _
    rw [step p (pre ++ item :: post) np, step p pre np]
    by_cases hpf : p.is_cpp_ffi_processed = true
    · simp only [hpf, if_true]
      rw [ih np]
      rfl
    · simp only [Bool.not_eq_true] at hpf
      simp only [hpf, Bool.false_eq_true, if_false]
      by_cases hpp : should_process_item p.cpp_data = true
      · simp only [hpp, Bool.not_true, Bool.false_eq_true, if_false]
        rw [prod_eta_pair (generate_ffi_items oracle movable_types p.cpp_data np)]
        cases hgp : (generate_ffi_items oracle movable_types p.cpp_data np).1 with
        | error e =>
          simp only []
          rw [ih _]
          rfl
        | ok produced =>
          simp only []
          rw [ih _]
          simp [List.append_assoc, List.cons_append]
      · simp only [Bool.not_eq_true] at hpp
        simp only [hpp, Bool.not_false, if_true]
        rw [ih np]
        rfl

theorem c10_item_failure_isolated_witness :
    w10Item.is_cpp_ffi_processed = false ∧
    should_process_item w10Item.cpp_data = true ∧
    (∀ np2, exceptOk (generate_ffi_items idOracle [] w10Item.cpp_data np2).1 =
      false) ∧
    processItems idOracle [] ([] ++ w10Item :: [w10Post]) npExample =
      ((processItems idOracle [] [] npExample).1 ++ w10Item ::
        (processItems idOracle [] [w10Post]
          (generate_ffi_items idOracle [] w10Item.cpp_data
            (processItems idOracle [] [] npExample).2.2).2).1,
       (processItems idOracle [] [] npExample).2.1 ++
        (processItems idOracle [] [w10Post]
          (generate_ffi_items idOracle [] w10Item.cpp_data
            (processItems idOracle [] [] npExample).2.2).2).2.1,
       (processItems idOracle [] [w10Post]
          (generate_ffi_items idOracle [] w10Item.cpp_data
            (processItems idOracle [] [] npExample).2.2).2).2.2) :=
  ⟨rfl, rfl, fun _ => rfl,
   c10_item_failure_isolated idOracle [] [] w10Item [w10Post] npExample
     rfl rfl (fun _ => rfl)⟩
